import Mathlib

/-!
Verification of the DAZI-AI streaming layer: a shallow embedding of the
WebSocket frame codec (three client variants), the ByteDance-style ASR
protocol messages, the TTS audio ring buffer, and the voice-activity
conversation logic, together with theorems settling the specification
claims about them.

Bytes of a network stream are modelled as natural numbers (values below
256 on real hardware); the stream itself is the list of bytes currently
available to the client.  The Arduino `readBytes(buf, n)` call blocks
until `n` bytes arrived or its timeout expired; in the model a timeout
is the stream running dry, so `readBytes` consumes `min n length` bytes
and returns them.
-/

/-- Model of Arduino Stream readBytes with timeout: consumes up to `n`
bytes from the stream, returning the bytes obtained (fewer than `n`
exactly when the stream ran dry before the timeout) and the rest of the
stream. -/
def readBytes (n : Nat) (s : List Nat) : List Nat × List Nat :=
  (s.take n, s.drop n)

/-- Big-endian assembly of a byte list, as the C loops
`payload_len = (payload_len << 8) | len_bytes[i]` compute it. -/
def beBytesToNat (l : List Nat) : Nat :=
  l.foldl (fun acc b => (acc <<< 8) ||| b) 0

/-- XOR (un)masking loop `data[i] ^= mask_key[i % 4]`, with `i` the
running index. -/
def maskWith (key : List Nat) : Nat → List Nat → List Nat
  | _, [] => []
  | i, b :: rest => (b ^^^ key.getD (i % 4) 0) :: maskWith key (i + 1) rest

/-- An uninitialized C buffer read short leaves stack garbage in the
remaining cells; `padTo n l junk` is the buffer of length `n` whose first
cells are the bytes actually read and whose remainder is the garbage. -/
def padTo (n : Nat) (l junk : List Nat) : List Nat :=
  (l ++ junk ++ List.replicate n 0).take n

/-- What a call to a client's handleWebSocketData did, as observed by the
layers above it: nothing, dispatching a complete payload to the protocol
parser, starting or continuing a fragmented message (TTS only), closing
the connection, or answering a Ping. -/
inductive WsEvent where
  | nothing : WsEvent
  | dispatch (opcode : Nat) (payload : List Nat) : WsEvent
  | fragFirst (payload : List Nat) : WsEvent
  | fragCont (fin : Bool) (payload : List Nat) : WsEvent
  | closed : WsEvent
  | pong : WsEvent
deriving DecidableEq

/-- `ArduinoASRChat::handleWebSocketData` (part_002 lines 1435-1494).
The two extended-length reads are unchecked in the source and their
`uint8_t len_bytes[...]` buffers are uninitialized, so a short read
leaves garbage in the unread cells: `junk` supplies that garbage.  The
mask-key buffer is initialized to zero in the source, hence padded with
zeros here.  Returns the observed event and the remaining stream. -/
def asrHandleWebSocketData (junk : List Nat) (s : List Nat) : WsEvent × List Nat :=
  let (hdr, s1) := readBytes 2 s
  if hdr.length ≠ 2 then (.nothing, s1)
  else
    let b0 := hdr.getD 0 0
    let b1 := hdr.getD 1 0
    let opcode := b0 &&& 0x0F
    let masked := b1 &&& 0x80 != 0
    let len7 := b1 &&& 0x7F
    if len7 = 126 then
      let (lb, s2) := readBytes 2 s1
      let lb2 := padTo 2 lb junk
      asrAfterLen opcode masked ((lb2.getD 0 0 <<< 8) ||| lb2.getD 1 0) s2
    else if len7 = 127 then
      let (lb, s2) := readBytes 8 s1
      asrAfterLen opcode masked (beBytesToNat (padTo 8 lb junk)) s2
    else asrAfterLen opcode masked len7 s1
where
  /-- Continuation of the ASR decoder once the payload length is known:
  mask key (read unchecked, buffer zero-initialized), payload bytes,
  unmasking, opcode dispatch. -/
  asrAfterLen (opcode : Nat) (masked : Bool) (payloadLen : Nat)
      (s2 : List Nat) : WsEvent × List Nat :=
    let mk := if masked then readBytes 4 s2 else ([], s2)
    let maskKey := mk.1
    let s3 := mk.2
    if 0 < payloadLen ∧ payloadLen < 100000 then
      let (p, s4) := readBytes payloadLen s3
      if p.length = payloadLen then
        let payload := if masked then maskWith maskKey 0 p else p
        if opcode = 0x01 ∨ opcode = 0x02 then (.dispatch opcode payload, s4)
        else if opcode = 0x08 then (.closed, s4)
        else if opcode = 0x09 then (.pong, s4)
        else (.nothing, s4)
      else (.nothing, s4)
    else (.nothing, s3)

/-- `ArduinoTTSChat::handleWebSocketData` (ArduinoTTSChat.cpp lines
558-660).  All multi-byte reads go through `readBytesWithTimeout` and are
checked, so no garbage is involved.  Dispatch means handing a complete
message to `parseJsonResponse`; fragment bookkeeping is reported as the
corresponding event. -/
def ttsHandleWebSocketData (s : List Nat) : WsEvent × List Nat :=
  let (hdr, s1) := readBytes 2 s
  if hdr.length ≠ 2 then (.nothing, s1)
  else
    let b0 := hdr.getD 0 0
    let b1 := hdr.getD 1 0
    let fin := b0 &&& 0x80 != 0
    let opcode := b0 &&& 0x0F
    let masked := b1 &&& 0x80 != 0
    let len7 := b1 &&& 0x7F
    if len7 = 126 then
      let (lb, s2) := readBytes 2 s1
      if lb.length ≠ 2 then (.nothing, s2)
      else ttsAfterLen fin opcode masked ((lb.getD 0 0 <<< 8) ||| lb.getD 1 0) s2
    else if len7 = 127 then
      let (lb, s2) := readBytes 8 s1
      if lb.length ≠ 8 then (.nothing, s2)
      else ttsAfterLen fin opcode masked (beBytesToNat lb) s2
    else ttsAfterLen fin opcode masked len7 s1
where
  /-- Continuation of the TTS decoder after the payload length is known:
  mask key, payload, unmasking, opcode dispatch. -/
  ttsAfterLen (fin : Bool) (opcode : Nat) (masked : Bool) (payloadLen : Nat)
      (s2 : List Nat) : WsEvent × List Nat :=
    let mk := if masked then readBytes 4 s2 else ([], s2)
    let maskKey := mk.1
    let s3 := mk.2
    if masked ∧ maskKey.length ≠ 4 then (.nothing, s3)
    else if 0 < payloadLen ∧ payloadLen < 200000 then
      let (p, s4) := readBytes payloadLen s3
      if p.length = payloadLen then
        let payload := if masked then maskWith maskKey 0 p else p
        if opcode = 0x01 ∨ opcode = 0x02 then
          if fin then (.dispatch opcode payload, s4) else (.fragFirst payload, s4)
        else if opcode = 0x00 then (.fragCont fin payload, s4)
        else if opcode = 0x08 then (.closed, s4)
        else if opcode = 0x09 then (.pong, s4)
        else (.nothing, s4)
      else (.nothing, s4)
    else (.nothing, s3)

/-- `ArduinoRealtimeDialog::handleWebSocketData` (ArduinoRealtimeDialog.cpp
lines 817-958), successful-allocation path.  The decoder first requires at
least 2 available bytes, checks every header read, and streams the payload
in: in the model the stream holds everything that will arrive before the
5-second timeout, so a declared payload longer than the remaining stream
consumes the whole remainder and gives up, while an oversized declared
length (at or above 1000000) is skipped by reading the declared number of
bytes one at a time, each `read()` consuming a byte only when one is
available. -/
def dialogHandleWebSocketData (s : List Nat) : WsEvent × List Nat :=
  if s.length < 2 then (.nothing, s)
  else
    let (hdr, s1) := readBytes 2 s
    if hdr.length ≠ 2 then (.nothing, s1)
    else
      let b0 := hdr.getD 0 0
      let b1 := hdr.getD 1 0
      let opcode := b0 &&& 0x0F
      let masked := b1 &&& 0x80 != 0
      let len7 := b1 &&& 0x7F
      if len7 = 126 then
        let (lb, s2) := readBytes 2 s1
        if lb.length ≠ 2 then (.nothing, s2)
        else dialogAfterLen opcode masked ((lb.getD 0 0 <<< 8) ||| lb.getD 1 0) s2
      else if len7 = 127 then
        let (lb, s2) := readBytes 8 s1
        if lb.length ≠ 8 then (.nothing, s2)
        else dialogAfterLen opcode masked (beBytesToNat lb) s2
      else dialogAfterLen opcode masked len7 s1
where
  /-- Continuation of the RealtimeDialog decoder once the payload length
  is known. -/
  dialogAfterLen (opcode : Nat) (masked : Bool) (payloadLen : Nat)
      (s2 : List Nat) : WsEvent × List Nat :=
    let mk := if masked then readBytes 4 s2 else ([], s2)
    let maskKey := mk.1
    let s3 := mk.2
    if masked ∧ maskKey.length ≠ 4 then (.nothing, s3)
    else if 0 < payloadLen ∧ payloadLen < 1000000 then
      if s3.length < payloadLen then (.nothing, [])
      else
        let (p, s4) := readBytes payloadLen s3
        let payload := if masked then maskWith maskKey 0 p else p
        if opcode = 0x02 then (.dispatch opcode payload, s4)
        else if opcode = 0x08 then (.closed, s4)
        else if opcode = 0x09 then (.pong, s4)
        else (.nothing, s4)
    else if 1000000 ≤ payloadLen then (.nothing, s3.drop payloadLen)
    else (.nothing, s3)

/-- A decoded WebSocket frame as handleWebSocketData extracts it: FIN
bit, opcode, MASK bit and the (unmasked) payload bytes. -/
structure WsFrame where
  fin : Bool
  opcode : Nat
  masked : Bool
  payload : List Nat
deriving DecidableEq

/-- The frame-parsing logic shared by the three handleWebSocketData
variants, as a pure function: base header, 0/2/8 extended-length bytes
(126 means 16-bit, 127 means 64-bit big-endian), 4-byte mask key when the
MASK bit is set, then exactly the declared number of payload bytes,
unmasked in place.  Parsing succeeds exactly when the stream holds the
complete frame; the leftover stream is returned alongside. -/
def wsParseFrame (s : List Nat) : Option (WsFrame × List Nat) :=
  match s with
  | b0 :: b1 :: rest =>
    let fin := b0 &&& 0x80 != 0
    let opcode := b0 &&& 0x0F
    let masked := b1 &&& 0x80 != 0
    let len7 := b1 &&& 0x7F
    let extN := if len7 = 126 then 2 else if len7 = 127 then 8 else 0
    if rest.length < extN then none
    else
      let ext := rest.take extN
      let rest2 := rest.drop extN
      let payloadLen := if len7 = 126 ∨ len7 = 127 then beBytesToNat ext else len7
      let maskN := if masked then 4 else 0
      if rest2.length < maskN then none
      else
        let mk := rest2.take maskN
        let rest3 := rest2.drop maskN
        if rest3.length < payloadLen then none
        else
          let raw := rest3.take payloadLen
          some ({ fin := fin, opcode := opcode, masked := masked,
                  payload := if masked then maskWith mk 0 raw else raw },
                rest3.drop payloadLen)
  | _ => none

/-- Total number of stream bytes the frame whose header starts the
stream will occupy, when enough of the header is present to compute it. -/
def wsFrameNeed (s : List Nat) : Option Nat :=
  match s with
  | _ :: b1 :: rest =>
    let masked := b1 &&& 0x80 != 0
    let maskN := if masked then 4 else 0
    let len7 := b1 &&& 0x7F
    if len7 = 126 then
      if rest.length < 2 then none
      else some (4 + maskN + ((rest.getD 0 0 <<< 8) ||| rest.getD 1 0))
    else if len7 = 127 then
      if rest.length < 8 then none
      else some (10 + maskN + beBytesToNat (rest.take 8))
    else some (2 + maskN + len7)
  | _ => none

/-- The stream does not yet contain one complete WebSocket frame: either
too short to even determine the frame's total size, or shorter than that
size. -/
def wsIncomplete (s : List Nat) : Prop :=
  match wsFrameNeed s with
  | none => True
  | some n => s.length < n

instance (s : List Nat) : Decidable (wsIncomplete s) := by
  unfold wsIncomplete; exact match wsFrameNeed s with
  | none => inferInstanceAs (Decidable True)
  | some _ => inferInstanceAs (Decidable (_ < _))

/-- `ArduinoASRChat::sendWebSocketFrame` (part_002 lines 1387-1429): the
bytes put on the wire for a payload, an opcode and the 4 random mask-key
bytes drawn for this frame.  FIN is always set, MASK is always set, and
the length field uses the 7-bit form below 126, the 16-bit form below
65536 and the 64-bit form otherwise. -/
def asrSendWebSocketFrame (payload : List Nat) (opcode : Nat) (maskKey : List Nat) : List Nat :=
  let len := payload.length
  let lenHeader :=
    if len < 126 then [0x80 ||| len]
    else if len < 65536 then [0x80 ||| 126, (len >>> 8) &&& 0xFF, len &&& 0xFF]
    else (0x80 ||| 127) :: (List.range 8).map (fun i => (len >>> (56 - i * 8)) &&& 0xFF)
  ((0x80 ||| opcode) :: lenHeader) ++ maskKey ++ maskWith maskKey 0 payload

/-- Message type code for a client audio-only request
(ArduinoASRChat.h line 30). -/
def CLIENT_AUDIO_ONLY_REQUEST : Nat := 0b0010

/-- Flags value marking a negative sequence number, i.e. the last chunk
(ArduinoASRChat.h line 37). -/
def NEG_SEQUENCE : Nat := 0b0010

/-- The 8-byte protocol message assembled by
`ArduinoASRChat::sendEndMarker` (part_002 lines 1360-1369): the fixed
4-byte header `{0x11, (CLIENT_AUDIO_ONLY_REQUEST << 4) | NEG_SEQUENCE,
0x10, 0x00}` followed by the 4 zero length bytes, with no payload. -/
def asrEndMarkerMessage : List Nat :=
  [0x11, (CLIENT_AUDIO_ONLY_REQUEST <<< 4) ||| NEG_SEQUENCE, 0x10, 0x00] ++
    [0x00, 0x00, 0x00, 0x00]

/-- Ring buffer capacity `AUDIO_BUFFER_SIZE` (ArduinoTTSChat.h line 212). -/
def AUDIO_BUFFER_SIZE : Nat := 524288

/-- Value of one hex digit, as the cascaded range tests in
`ArduinoTTSChat::parseJsonResponse` compute it; characters outside the
three ranges leave the initialized value 0. -/
def hexVal (c : Char) : Nat :=
  if '0' ≤ c ∧ c ≤ '9' then c.toNat - '0'.toNat
  else if 'a' ≤ c ∧ c ≤ 'f' then c.toNat - 'a'.toNat + 10
  else if 'A' ≤ c ∧ c ≤ 'F' then c.toNat - 'A'.toNat + 10
  else 0

/-- State shared between the TTS polling loop (producer) and the audio
playback task (consumer): the ring buffer bytes, the two positions, the
filled count `_audioDataSize`, and the flags driving playback-completion
detection (ArduinoTTSChat.h lines 200-226). -/
structure TtsAudioState where
  buf : Nat → Nat
  writePos : Nat
  readPos : Nat
  size : Nat
  receivingAudio : Bool
  chunksReceived : Nat
  isPlaying : Bool
  taskStarted : Bool
  completions : Nat

/-- TTS state right after `speakText` reset it for a new utterance
(ArduinoTTSChat.cpp lines 326-332): playing, not receiving, empty
buffer, no chunks counted. -/
def ttsSpeakStart : TtsAudioState :=
  { buf := fun _ => 0, writePos := 0, readPos := 0, size := 0,
    receivingAudio := false, chunksReceived := 0, isPlaying := true,
    taskStarted := true, completions := 0 }

/-- The hex-decoding write loop of the audio branch
(ArduinoTTSChat.cpp lines 732-746): `for (i = 0; i < hexLen; i += 2)`
decodes `audioHex[i]` and `audioHex[i+1]` — for odd `hexLen` the final
`audioHex[i+1]` reads the terminating NUL, whose hexVal is 0 — stores the
byte at the write position and advances it modulo the capacity. -/
def hexWriteLoop (buf : Nat → Nat) (pos : Nat) : List Char → (Nat → Nat) × Nat
  | [] => (buf, pos)
  | [c1] =>
    let b := (hexVal c1 <<< 4) ||| hexVal (Char.ofNat 0)
    (fun j => if j = pos then b else buf j, (pos + 1) % AUDIO_BUFFER_SIZE)
  | c1 :: c2 :: rest =>
    let b := (hexVal c1 <<< 4) ||| hexVal c2
    hexWriteLoop (fun j => if j = pos then b else buf j)
      ((pos + 1) % AUDIO_BUFFER_SIZE) rest

/-- The audio branch of `ArduinoTTSChat::parseJsonResponse`
(ArduinoTTSChat.cpp lines 712-751) applied to the hex string of one
`data.audio` field: guarded by `strlen(audioHex) > 0`; counts the chunk
and marks audio as being received; computes the needed byte count and the
free space; writes the whole chunk when it fits and drops it entirely
otherwise.  Returns the new state and the number of bytes accepted into
`_audioDataSize`. -/
def ttsAudioChunk (s : TtsAudioState) (hex : List Char) : TtsAudioState × Nat :=
  if hex.isEmpty then (s, 0)
  else
    let s1 := { s with chunksReceived := s.chunksReceived + 1, receivingAudio := true }
    let bytesNeeded := hex.length / 2
    let freeSpace := AUDIO_BUFFER_SIZE - s1.size
    if bytesNeeded ≤ freeSpace then
      let wr := hexWriteLoop s1.buf s1.writePos hex
      ({ s1 with buf := wr.1, writePos := wr.2, size := s1.size + bytesNeeded },
       bytesNeeded)
    else (s1, 0)

/-- The `is_final` branch of `ArduinoTTSChat::parseJsonResponse`
(ArduinoTTSChat.cpp lines 755-758): the producer signals that no more
audio is incoming for this utterance. -/
def ttsIsFinal (s : TtsAudioState) : TtsAudioState :=
  { s with receivingAudio := false }

/-- One iteration of the drain loop in
`ArduinoTTSChat::processAudioPlayback` (ArduinoTTSChat.cpp lines
794-813): up to the contiguous run from the read position, at most 4096
bytes, aligned down to 16 bits; the I2S sink accepts `written ≤ toRead`
bytes (the oracle `w` bounds it). -/
def ttsReadIter (s : TtsAudioState) (w : Nat) : TtsAudioState :=
  let contiguous := AUDIO_BUFFER_SIZE - s.readPos
  let toRead := min (min s.size contiguous) 4096 / 2 * 2
  if toRead > 0 then
    let written := min w toRead
    { s with readPos := (s.readPos + written) % AUDIO_BUFFER_SIZE,
             size := s.size - written }
  else s

/-- The drain while-loop of `processAudioPlayback`: iterates while data
remains; stops when the aligned read size is 0 or the I2S sink accepts 0
bytes; the oracle list gives the sink's acceptance for each iteration
(an exhausted oracle ends the loop like a full sink). -/
def ttsDrain (s : TtsAudioState) : List Nat → TtsAudioState
  | [] => s
  | w :: ws =>
    if s.size > 0 then
      let contiguous := AUDIO_BUFFER_SIZE - s.readPos
      let toRead := min (min s.size contiguous) 4096 / 2 * 2
      if toRead > 0 then
        if min w toRead = 0 then s
        else ttsDrain (ttsReadIter s w) ws
      else s
    else s

/-- The playback-completion condition checked after the drain loop
(ArduinoTTSChat.cpp line 816): not receiving audio, buffer empty, and at
least one chunk received. -/
def ttsCompletionCheck (s : TtsAudioState) : Bool :=
  !s.receivingAudio && s.size == 0 && s.chunksReceived > 0

/-- `ArduinoTTSChat::processAudioPlayback` (ArduinoTTSChat.cpp lines
792-831): drain, then on completion reset the buffer and the chunk
count, stop playing and fire the completion callback. -/
def ttsProcessAudioPlayback (s : TtsAudioState) (ws : List Nat) : TtsAudioState :=
  let s1 := ttsDrain s ws
  if ttsCompletionCheck s1 then
    { s1 with isPlaying := false, writePos := 0, readPos := 0, size := 0,
              chunksReceived := 0, taskStarted := false,
              completions := s1.completions + 1 }
  else s1

/-- One interleaving step of the two TTS execution contexts: a decoded
audio chunk arriving, the final-marker JSON arriving, or the playback
task running `processAudioPlayback` with the given I2S acceptance
oracle. -/
inductive TtsOp where
  | chunk (hex : List Char) : TtsOp
  | final : TtsOp
  | play (ws : List Nat) : TtsOp

/-- Apply one producer/consumer step. -/
def ttsStep (s : TtsAudioState) : TtsOp → TtsAudioState
  | .chunk hex => (ttsAudioChunk s hex).1
  | .final => ttsIsFinal s
  | .play ws => ttsProcessAudioPlayback s ws

/-- The TTS state reached from a fresh utterance by a sequence of
interleaved producer writes and consumer reads. -/
def ttsRun (ops : List TtsOp) : TtsAudioState :=
  ops.foldl ttsStep ttsSpeakStart

/-- One step of tracking the last effective producer event of a trace:
a chunk with a non-empty hex string (the only kind `parseJsonResponse`
acts on) records `some true`, the final marker records `some false`,
playback steps record nothing. -/
def ttsProdStep (acc : Option Bool) (op : TtsOp) : Option Bool :=
  match op with
  | .chunk hex => if hex.isEmpty then acc else some true
  | .final => some false
  | .play _ => acc

/-- The last effective producer event of a trace, if any. -/
def ttsLastProducerEvent (ops : List TtsOp) : Option Bool :=
  ops.foldl ttsProdStep none

/-- The producer has signaled "no more audio is incoming for this
utterance": a final marker was processed and no audio chunk followed it. -/
def ttsNoMoreAudioSignaled (ops : List TtsOp) : Prop :=
  ttsLastProducerEvent ops = some false

/-- The uint32 subtraction `millis() - t0` as C computes it on the
32-bit `unsigned long` of this target. -/
def usub32 (a b : Nat) : Nat :=
  (a % 4294967296 + (4294967296 - b % 4294967296)) % 4294967296

/-- The recording/VAD state of `ArduinoASRChat` touched by
`parseResponse`, `stopRecording` and `checkSilence` (part_002 and
ArduinoASRChat.h): speech detection, the latest recognition text with its
repeat counter, the recording flags, the final result, the configured
silence duration, plus the observable outputs — how often recording was
stopped and which texts the result callback received. -/
structure AsrConvState where
  hasSpeech : Bool
  lastSpeechTime : Nat
  lastResultText : String
  sameResultCount : Nat
  isRecording : Bool
  shouldStop : Bool
  recognizedText : String
  hasNewResult : Bool
  silenceDuration : Nat
  stopCount : Nat
  resultCalls : List String

/-- State right after `startRecording` reset it (part_002 lines
1059-1069), with the default silence duration of 1000 ms
(ArduinoASRChat.h line 206) and a registered result callback. -/
def asrStartState : AsrConvState :=
  { hasSpeech := false, lastSpeechTime := 0, lastResultText := "",
    sameResultCount := 0, isRecording := true, shouldStop := false,
    recognizedText := "", hasNewResult := false, silenceDuration := 1000,
    stopCount := 0, resultCalls := [] }

/-- `ArduinoASRChat::stopRecording` (part_002 lines 1082-1111): a no-op
unless recording; otherwise clears the recording flag, latches the final
text from the last recognition result, sends the end marker, and invokes
the result callback exactly when the final text is non-empty. -/
def asrStopRecording (s : AsrConvState) : AsrConvState :=
  if !s.isRecording then s
  else
    let s1 := { s with isRecording := false, shouldStop := true,
                       recognizedText := s.lastResultText, hasNewResult := true,
                       stopCount := s.stopCount + 1 }
    if s1.recognizedText.length > 0 then
      { s1 with resultCalls := s1.resultCalls ++ [s1.recognizedText] }
    else s1

/-- The guard `current_text.length() > 0 && current_text != " "` of
part_002 line 1558: only such texts count as recognition updates. -/
def asrValidText (t : String) : Bool :=
  t.length > 0 && t != " "

/-- The recognition-result branch of `ArduinoASRChat::parseResponse`
(part_002 lines 1548-1589) for one recognized text arriving at time
`now`: mark speech, refresh the silence timestamp, and run the
result-stability rule — an identical text bumps the repeat counter and
recording is stopped when that counter reaches 10 while still recording;
a changed text resets the counter to 1. -/
def asrTextUpdate (s : AsrConvState) (t : String) (now : Nat) : AsrConvState :=
  if asrValidText t then
    let s1 := { s with hasSpeech := true, lastSpeechTime := now }
    if t = s1.lastResultText then
      let s2 := { s1 with sameResultCount := s1.sameResultCount + 1 }
      if 10 ≤ s2.sameResultCount ∧ s2.isRecording ∧ ¬s2.shouldStop then
        asrStopRecording s2
      else s2
    else { s1 with sameResultCount := 1, lastResultText := t }
  else s

/-- The state after a scripted sequence of recognition-text updates
(text and arrival time) delivered to `parseResponse`. -/
def asrRunUpdates (s : AsrConvState) (script : List (String × Nat)) : AsrConvState :=
  script.foldl (fun st u => asrTextUpdate st u.1 u.2) s

/-- `ArduinoASRChat::checkSilence` (part_002 lines 1223-1232): once
speech has been detected and the last-speech timestamp is positive, stop
recording when the time since that timestamp reaches the configured
silence duration. -/
def asrCheckSilence (s : AsrConvState) (now : Nat) : AsrConvState :=
  if s.hasSpeech ∧ s.lastSpeechTime > 0 then
    if s.silenceDuration ≤ usub32 now s.lastSpeechTime then asrStopRecording s
    else s
  else s

/-- One iteration of the silence guard as `ArduinoASRChat::loop` drives
it (part_002 lines 1139-1143): `checkSilence` runs only while recording
and not already stopping. -/
def asrSilenceTick (s : AsrConvState) (now : Nat) : AsrConvState :=
  if s.isRecording ∧ ¬s.shouldStop then asrCheckSilence s now else s

/-- The silence guard run over the loop iterations at the given times,
with no recognition update in between. -/
def asrSilenceRun (s : AsrConvState) (times : List Nat) : AsrConvState :=
  times.foldl asrSilenceTick s

/-- The slice of `ArduinoRealtimeDialog` state driven by the
`EVENT_ASR_ENDED` branch of `handleServerEvent`
(ArduinoRealtimeDialog.cpp lines 1093-1102). -/
structure DialogAsrState where
  userSpeaking : Bool
  lastASRText : String
  recognizedText : String
  asrEndedCalls : List String

/-- The `EVENT_ASR_ENDED` branch: recognition ended, the final text is
latched from the last ASR text, and the ASR-ended callback is invoked
exactly when that text is non-empty. -/
def dialogAsrEnded (s : DialogAsrState) : DialogAsrState :=
  let s1 := { s with userSpeaking := false, recognizedText := s.lastASRText }
  if s1.recognizedText.length > 0 then
    { s1 with asrEndedCalls := s1.asrEndedCalls ++ [s1.recognizedText] }
  else s1

/-- The structural well-formedness of the ring buffer state claimed by
the specification: the filled count never exceeds the capacity and both
positions stay strictly below it. -/
def ttsBufWellFormed (s : TtsAudioState) : Prop :=
  s.size ≤ AUDIO_BUFFER_SIZE ∧ s.writePos < AUDIO_BUFFER_SIZE ∧
    s.readPos < AUDIO_BUFFER_SIZE

/-- Reachability invariant of the update engine: either recording was
never stopped (still recording, repeat counter at most 9) or it was
stopped exactly once. -/
def asrStabilityInv (s : AsrConvState) : Prop :=
  (s.stopCount = 1 ∧ s.isRecording = false ∧ s.shouldStop = true) ∨
  (s.stopCount = 0 ∧ s.isRecording = true ∧ s.shouldStop = false ∧
    s.sameResultCount ≤ 9)

/-- Intermediate property while walking a window of identical updates
with text `t`: either the single stop already happened, or after `k`
window elements the repeat counter has reached at least `k` (and at most
9) with `t` as the latched text. -/
def asrWindowProp (t : String) (k : Nat) (s : AsrConvState) : Prop :=
  (s.stopCount = 1 ∧ s.isRecording = false ∧ s.shouldStop = true) ∨
  (s.stopCount = 0 ∧ s.isRecording = true ∧ s.shouldStop = false ∧
    s.sameResultCount ≤ 9 ∧ (1 ≤ k → (s.lastResultText = t ∧ k ≤ s.sameResultCount)))

/-- Recording is stopped on update `j` of the script: the stop counter
grows when that update is processed. -/
def asrStopsAt (script : List (String × Nat)) (j : Nat) : Prop :=
  (asrRunUpdates asrStartState (script.take j)).stopCount <
    (asrRunUpdates asrStartState (script.take (j + 1))).stopCount

/-! ## Helper lemmas -/

theorem maskWith_length (key : List Nat) : ∀ (i : Nat) (l : List Nat),
    (maskWith key i l).length = l.length := by
  intro i l
  induction l generalizing i with
  | nil => rfl
  | cons b rest ih => simp [maskWith, ih]

theorem maskWith_maskWith (key : List Nat) : ∀ (i : Nat) (l : List Nat),
    maskWith key i (maskWith key i l) = l := by
  intro i l
  induction l generalizing i with
  | nil => rfl
  | cons b rest ih => simp [maskWith, ih, Nat.xor_cancel_right]

theorem padTo_of_length_eq {n : Nat} {l : List Nat} (junk : List Nat)
    (h : l.length = n) : padTo n l junk = l := by
  unfold padTo
  rw [List.append_assoc, ← h, List.take_left]

theorem getD_take {l : List Nat} {n i : Nat} (d : Nat) (h : i < n) :
    (l.take n).getD i d = l.getD i d := by
  induction l generalizing n i with
  | nil => simp
  | cons x xs ih =>
    cases n with
    | zero => omega
    | succ m =>
      cases i with
      | zero => simp
      | succ j => simpa using ih (n := m) (i := j) (by omega)

theorem foldlInvariant {α β : Type} (f : α → β → α) (P : α → Prop)
    (l : List β) (s : α) (h0 : P s) (hstep : ∀ a b, P a → P (f a b)) :
    P (l.foldl f s) := by
  induction l generalizing s with
  | nil => exact h0
  | cons x xs ih => exact ih _ (hstep _ _ h0)

/-! ## Claim C9: the ASR end marker wire format -/

/-- Claim C9: every end marker emitted by `sendEndMarker` is a single
8-byte protocol message: the 4-byte fixed header whose message type
nibble is the audio-only request code and whose flags nibble is the
negative-sequence marker, followed by a 4-byte big-endian payload length
equal to zero, with no payload bytes after it. -/
theorem asr_end_marker_wire_format :
    asrEndMarkerMessage.length = 8 ∧
    asrEndMarkerMessage.getD 0 0 = 0x11 ∧
    (asrEndMarkerMessage.getD 1 0) >>> 4 = CLIENT_AUDIO_ONLY_REQUEST ∧
    (asrEndMarkerMessage.getD 1 0) &&& 0x0F = NEG_SEQUENCE ∧
    beBytesToNat (asrEndMarkerMessage.drop 4) = 0 ∧
    (asrEndMarkerMessage.drop 4).length = 4 ∧
    asrEndMarkerMessage.drop 8 = [] := by
  decide

/-! ## Claim C5: acceptance count of the TTS ring-buffer write -/


/-- Counterexample to claim C5: the write does not accept `min(n, f)`
bytes — a chunk needing 524289 bytes offered to the empty ring buffer
(free space 524288) is accepted with 0 bytes, while `min(n, f)` would be
524288. -/
theorem tts_write_not_min_counterexample :
    (ttsAudioChunk ttsSpeakStart (List.replicate 1048578 'a')).2 = 0 ∧
    min ((List.replicate 1048578 'a').length / 2)
      (AUDIO_BUFFER_SIZE - ttsSpeakStart.size) = 524288 ∧
    (0 : Nat) ≠ 524288 := by
  refine ⟨?_, ?_, by decide⟩
  · have hne : (List.replicate 1048578 'a').isEmpty = false := by
      rw [List.isEmpty_eq_false_iff_exists_mem]
      exact ⟨'a', List.mem_replicate.mpr ⟨by norm_num, rfl⟩⟩
    rw [ttsAudioChunk, hne]
    rw [List.length_replicate]
    norm_num [ttsSpeakStart, AUDIO_BUFFER_SIZE]
  · rw [List.length_replicate]
    norm_num [ttsSpeakStart, AUDIO_BUFFER_SIZE]

/-- Claim C5 as amended: the audio-branch write is all-or-nothing — it
accepts exactly the `n = hexLen / 2` bytes needed when they fit in the
free space `f = capacity - filled` and accepts 0 bytes otherwise (the
chunk is dropped as backpressure), and the number of accepted bytes
never exceeds the number offered. -/
theorem tts_write_all_or_nothing (s : TtsAudioState) (hex : List Char) :
    (ttsAudioChunk s hex).2 =
      (if hex.length / 2 ≤ AUDIO_BUFFER_SIZE - s.size then hex.length / 2 else 0) ∧
    (ttsAudioChunk s hex).2 ≤ hex.length / 2 := by
  unfold ttsAudioChunk
  rcases hex with _ | ⟨c, rest⟩
  · simp
  · simp only [List.isEmpty_cons, Bool.false_eq_true, if_false]
    constructor
    · split <;> simp_all
    · split <;> simp_all

/-! ## Claim C1: consumption of partial frames -/

/-- Counterexample to claim C1: on streams that do not contain a
complete frame, the decoders return having already consumed bytes.  The
ASR and TTS decoders consume the lone header byte of the stream
`[0x81]`; the RealtimeDialog decoder, given two header bytes announcing
a 16-bit extended length plus only one of the two length bytes, consumes
all three.  A later retry therefore does not start at the frame
boundary. -/
theorem ws_partial_frame_consumed_counterexample :
    wsIncomplete [0x81] ∧
    (asrHandleWebSocketData [] [0x81]).2 ≠ [0x81] ∧
    (ttsHandleWebSocketData [0x81]).2 ≠ [0x81] ∧
    wsIncomplete [0x81, 0xFE, 0x00] ∧
    (dialogHandleWebSocketData [0x81, 0xFE, 0x00]).2 ≠ [0x81, 0xFE, 0x00] := by
  decide

/-! ## Claim C2: an oversized declared payload is not drained -/

/-- Claim C2 evaluated at the failing inputs: a frame declaring exactly
the variant's hard ceiling as payload length, with all declared payload
bytes present in the stream, is rejected without being dispatched, but
the ASR client (ceiling 100000) and the TTS client (ceiling 200000)
leave every declared payload byte unconsumed in the stream and do not
close the connection, so the stream is left misaligned; only the
RealtimeDialog client (ceiling 1000000) drains the declared bytes. -/
theorem ws_oversized_payload_not_drained :
    (asrHandleWebSocketData []
        ([0x82, 127, 0, 0, 0, 0, 0, 1, 0x86, 0xA0] ++ List.replicate 100000 7))
      = (.nothing, List.replicate 100000 7) ∧
    (ttsHandleWebSocketData
        ([0x82, 127, 0, 0, 0, 0, 0, 3, 0x0D, 0x40] ++ List.replicate 200000 7))
      = (.nothing, List.replicate 200000 7) ∧
    (dialogHandleWebSocketData
        ([0x82, 127, 0, 0, 0, 0, 0, 0x0F, 0x42, 0x40] ++ List.replicate 1000000 1))
      = (.nothing, []) := by
  refine ⟨rfl, rfl, ?_⟩
  have key : ∀ rest : List Nat, rest.drop 1000000 = [] →
      dialogHandleWebSocketData
        ([0x82, 127, 0, 0, 0, 0, 0, 0x0F, 0x42, 0x40] ++ rest) = (.nothing, []) := by
    intro rest hdrop
    have e1 : ((15:Nat) <<< 8 ||| 66) <<< 8 ||| 64 = 1000000 := by decide
    have e2 : (127:Nat) &&& 128 = 0 := by decide
    simp only [List.cons_append, List.nil_append]
    rw [dialogHandleWebSocketData]
    simp only [List.length_cons, readBytes]
    norm_num
    rw [dialogHandleWebSocketData.dialogAfterLen]
    simp [beBytesToNat, e1, e2, hdrop]
  apply key
  rw [List.drop_replicate]
  norm_num

/-! ## Claim C4: ring-buffer invariants -/

theorem hexWriteLoop_pos_lt (buf : Nat → Nat) (pos : Nat) (l : List Char) :
    pos < AUDIO_BUFFER_SIZE → (hexWriteLoop buf pos l).2 < AUDIO_BUFFER_SIZE := by
  induction buf, pos, l using hexWriteLoop.induct with
  | case1 buf pos => intro h; simpa [hexWriteLoop] using h
  | case2 buf pos c1 =>
    intro h
    simp only [hexWriteLoop]
    exact Nat.mod_lt _ (by decide)
  | case3 buf pos c1 c2 rest b ih =>
    intro h
    simp only [hexWriteLoop]
    exact ih (Nat.mod_lt _ (by decide))

theorem ttsAudioChunk_wellFormed (s : TtsAudioState) (hex : List Char)
    (h : ttsBufWellFormed s) : ttsBufWellFormed (ttsAudioChunk s hex).1 := by
  obtain ⟨h1, h2, h3⟩ := h
  unfold ttsAudioChunk
  dsimp only
  split
  · exact ⟨h1, h2, h3⟩
  · split
    · refine ⟨by simp; omega, ?_, by simpa using h3⟩
      simpa using hexWriteLoop_pos_lt _ _ _ h2
    · exact ⟨by simpa using h1, by simpa using h2, by simpa using h3⟩

theorem ttsReadIter_wellFormed (s : TtsAudioState) (w : Nat)
    (h : ttsBufWellFormed s) : ttsBufWellFormed (ttsReadIter s w) := by
  obtain ⟨h1, h2, h3⟩ := h
  unfold ttsReadIter
  dsimp only
  split
  · exact ⟨by simp; omega, by simpa using h2, by simpa using Nat.mod_lt _ (show 0 < AUDIO_BUFFER_SIZE by decide)⟩
  · exact ⟨h1, h2, h3⟩

theorem ttsDrain_wellFormed (ws : List Nat) : ∀ (s : TtsAudioState),
    ttsBufWellFormed s → ttsBufWellFormed (ttsDrain s ws) := by
  induction ws with
  | nil => intro s h; exact h
  | cons w rest ih =>
    intro s h
    unfold ttsDrain
    dsimp only
    split
    · split
      · split
        · exact h
        · exact ih _ (ttsReadIter_wellFormed s w h)
      · exact h
    · exact h

theorem ttsReadIter_flags (s : TtsAudioState) (w : Nat) :
    (ttsReadIter s w).receivingAudio = s.receivingAudio ∧
    (ttsReadIter s w).chunksReceived = s.chunksReceived ∧
    (ttsReadIter s w).completions = s.completions := by
  unfold ttsReadIter
  dsimp only
  split <;> exact ⟨rfl, rfl, rfl⟩

theorem ttsDrain_flags (ws : List Nat) : ∀ (s : TtsAudioState),
    (ttsDrain s ws).receivingAudio = s.receivingAudio ∧
    (ttsDrain s ws).chunksReceived = s.chunksReceived ∧
    (ttsDrain s ws).completions = s.completions := by
  induction ws with
  | nil => intro s; exact ⟨rfl, rfl, rfl⟩
  | cons w rest ih =>
    intro s
    unfold ttsDrain
    dsimp only
    split
    · split
      · split
        · exact ⟨rfl, rfl, rfl⟩
        · obtain ⟨a1, a2, a3⟩ := ih (ttsReadIter s w)
          obtain ⟨b1, b2, b3⟩ := ttsReadIter_flags s w
          exact ⟨a1.trans b1, a2.trans b2, a3.trans b3⟩
      · exact ⟨rfl, rfl, rfl⟩
    · exact ⟨rfl, rfl, rfl⟩

theorem ttsStep_wellFormed (s : TtsAudioState) (op : TtsOp)
    (h : ttsBufWellFormed s) : ttsBufWellFormed (ttsStep s op) := by
  cases op with
  | chunk hex => exact ttsAudioChunk_wellFormed s hex h
  | final => exact h
  | play ws =>
    simp only [ttsStep, ttsProcessAudioPlayback]
    split
    · exact ⟨by simp, by norm_num [AUDIO_BUFFER_SIZE], by norm_num [AUDIO_BUFFER_SIZE]⟩
    · exact ttsDrain_wellFormed ws s h

/-- Claim C4: across every interleaving of producer writes and consumer
reads from a fresh utterance, the filled count `_audioDataSize` never
exceeds `AUDIO_BUFFER_SIZE` and both positions stay strictly below the
capacity; moreover, at any state, a write whose needed byte count
exceeds the free space is rejected without touching the buffer contents,
the positions or the filled count (accepting 0 bytes), and once the
buffer is full every write accepts 0 bytes (until a read frees space
again). -/
theorem tts_ring_buffer_invariants (ops : List TtsOp) (s : TtsAudioState)
    (hex : List Char) :
    (ttsRun ops).size ≤ AUDIO_BUFFER_SIZE ∧
    (ttsRun ops).writePos < AUDIO_BUFFER_SIZE ∧
    (ttsRun ops).readPos < AUDIO_BUFFER_SIZE ∧
    (AUDIO_BUFFER_SIZE - s.size < hex.length / 2 →
      (∀ j, (ttsAudioChunk s hex).1.buf j = s.buf j) ∧
      (ttsAudioChunk s hex).1.writePos = s.writePos ∧
      (ttsAudioChunk s hex).1.readPos = s.readPos ∧
      (ttsAudioChunk s hex).1.size = s.size ∧
      (ttsAudioChunk s hex).2 = 0) ∧
    (s.size = AUDIO_BUFFER_SIZE → (ttsAudioChunk s hex).2 = 0) := by
  have hrun : ttsBufWellFormed (ttsRun ops) := by
    apply foldlInvariant ttsStep ttsBufWellFormed ops ttsSpeakStart
    · exact ⟨by decide, by decide, by decide⟩
    · exact fun a b h => ttsStep_wellFormed a b h
  obtain ⟨h1, h2, h3⟩ := hrun
  refine ⟨h1, h2, h3, ?_, ?_⟩
  · intro hover
    unfold ttsAudioChunk
    dsimp only
    rcases hex with _ | ⟨c, rest⟩
    · simp at hover
    · simp only [List.length_cons] at hover ⊢
      have hrej : ¬ ((rest.length + 1) / 2 ≤ AUDIO_BUFFER_SIZE - s.size) := by omega
      simp [hrej]
  · intro hfull
    unfold ttsAudioChunk
    dsimp only
    rcases hex with _ | ⟨c, rest⟩
    · rfl
    · simp only [List.isEmpty_cons, List.length_cons]
      rw [if_neg (by simp)]
      split
      · rename_i hacc
        dsimp only
        omega
      · rfl

/-- Witness for claim C4 at concrete inputs: the empty trace satisfies
the invariants, and at a full buffer a two-character hex chunk (needing
one byte) is accepted with 0 bytes. -/
theorem tts_ring_buffer_invariants_witness :
    (ttsRun []).size ≤ AUDIO_BUFFER_SIZE ∧
    (ttsAudioChunk { ttsSpeakStart with size := AUDIO_BUFFER_SIZE }
      ['a', 'b']).2 = 0 := by
  have h := tts_ring_buffer_invariants []
    { ttsSpeakStart with size := AUDIO_BUFFER_SIZE } ['a', 'b']
  exact ⟨h.1, h.2.2.2.2 rfl⟩

/-! ## Claim C8: playback-completion detection -/

theorem ttsStep_chunk_receiving (s : TtsAudioState) (hex : List Char) :
    (ttsStep s (.chunk hex)).receivingAudio =
      (if hex.isEmpty then s.receivingAudio else true) := by
  simp only [ttsStep, ttsAudioChunk]
  rcases hex with _ | ⟨c, cs⟩
  · rfl
  · simp only [List.isEmpty_cons, Bool.false_eq_true, if_false]
    split <;> rfl

theorem ttsStep_chunk_chunks (s : TtsAudioState) (hex : List Char) :
    (ttsStep s (.chunk hex)).chunksReceived =
      (if hex.isEmpty then s.chunksReceived else s.chunksReceived + 1) := by
  simp only [ttsStep, ttsAudioChunk]
  rcases hex with _ | ⟨c, cs⟩
  · rfl
  · simp only [List.isEmpty_cons, Bool.false_eq_true, if_false]
    split <;> rfl

theorem ttsStep_final_receiving (s : TtsAudioState) :
    (ttsStep s .final).receivingAudio = false := rfl

theorem ttsStep_final_chunks (s : TtsAudioState) :
    (ttsStep s .final).chunksReceived = s.chunksReceived := rfl

theorem ttsStep_play_receiving (s : TtsAudioState) (ws : List Nat) :
    (ttsStep s (.play ws)).receivingAudio = s.receivingAudio := by
  simp only [ttsStep, ttsProcessAudioPlayback]
  obtain ⟨f1, f2, f3⟩ := ttsDrain_flags ws s
  split
  · exact f1
  · exact f1

theorem ttsStep_play_chunks (s : TtsAudioState) (ws : List Nat) :
    (ttsStep s (.play ws)).chunksReceived = 0 ∨
    (ttsStep s (.play ws)).chunksReceived = s.chunksReceived := by
  simp only [ttsStep, ttsProcessAudioPlayback]
  obtain ⟨f1, f2, f3⟩ := ttsDrain_flags ws s
  split
  · exact Or.inl rfl
  · exact Or.inr f2

theorem ttsProducerInvAux (ops : List TtsOp) : ∀ (s : TtsAudioState) (acc : Option Bool),
    s.receivingAudio = decide (acc = some true) →
    (acc = none → s.chunksReceived = 0) →
    ((ops.foldl ttsStep s).receivingAudio
        = decide (ops.foldl ttsProdStep acc = some true)) ∧
    (ops.foldl ttsProdStep acc = none → (ops.foldl ttsStep s).chunksReceived = 0) := by
  induction ops with
  | nil => intro s acc h1 h2; exact ⟨h1, h2⟩
  | cons op rest ih =>
    intro s acc h1 h2
    simp only [List.foldl_cons]
    apply ih
    · cases op with
      | chunk hex =>
        rw [ttsStep_chunk_receiving]
        simp only [ttsProdStep]
        split
        · exact h1
        · simp
      | final =>
        rw [ttsStep_final_receiving]
        simp [ttsProdStep]
      | play ws =>
        rw [ttsStep_play_receiving]
        simpa [ttsProdStep] using h1
    · cases op with
      | chunk hex =>
        intro hn
        rw [ttsStep_chunk_chunks]
        simp only [ttsProdStep] at hn
        split
        · rename_i hemp
          rw [hemp] at hn
          exact h2 hn
        · rename_i hemp
          rw [if_neg hemp] at hn
          exact absurd hn (by simp)
      | final =>
        intro hn
        simp [ttsProdStep] at hn
      | play ws =>
        intro hn
        simp only [ttsProdStep] at hn
        rcases ttsStep_play_chunks s ws with h | h
        · rw [h]
        · rw [h]; exact h2 hn

/-- Counterexample to claim C8: after a bare final marker (an utterance
whose producer signaled end-of-data without a single audio chunk having
arrived), the no-more-audio signal stands and the buffer is empty, yet
the completion check is false: running the playback task fires no
completion callback and leaves the player marked as playing. -/
theorem tts_completion_zero_chunks_counterexample :
    ttsNoMoreAudioSignaled [TtsOp.final] ∧
    (ttsRun [TtsOp.final]).size = 0 ∧
    ttsCompletionCheck (ttsRun [TtsOp.final]) = false ∧
    (ttsProcessAudioPlayback (ttsRun [TtsOp.final]) []).completions = 0 ∧
    (ttsProcessAudioPlayback (ttsRun [TtsOp.final]) []).isPlaying = true := by
  exact ⟨rfl, rfl, rfl, rfl, rfl⟩

/-- Claim C8 as amended: after any interleaving of producer and consumer
steps, the playback consumer declares the utterance finished exactly
when the producer has signaled that no more audio is incoming, the ring
buffer's filled count has reached 0, and at least one audio chunk was
received for the utterance.  In particular it never fires while data
remains in the buffer or while audio is still being received. -/
theorem tts_playback_completion_iff (ops : List TtsOp) (ws : List Nat) :
    ttsCompletionCheck (ttsDrain (ttsRun ops) ws) = true ↔
      (ttsNoMoreAudioSignaled ops ∧ (ttsDrain (ttsRun ops) ws).size = 0 ∧
        0 < (ttsRun ops).chunksReceived) := by
  obtain ⟨f1, f2, f3⟩ := ttsDrain_flags ws (ttsRun ops)
  have inv := ttsProducerInvAux ops ttsSpeakStart none rfl (fun _ => rfl)
  have hre : (ttsRun ops).receivingAudio
      = decide (ttsLastProducerEvent ops = some true) := inv.1
  have hcz : ttsLastProducerEvent ops = none → (ttsRun ops).chunksReceived = 0 :=
    inv.2
  unfold ttsCompletionCheck ttsNoMoreAudioSignaled
  rw [f1, f2, hre]
  rcases hL : ttsLastProducerEvent ops with _ | b
  · rw [hcz hL]
    simp
  · cases b
    · simp
    · simp [Nat.pos_iff_ne_zero]


/-! ## Claim C7: the silence guard -/

theorem usub32_of_le {a b : Nat} (hba : b ≤ a) (ha : a < 4294967296) :
    usub32 a b = a - b := by
  unfold usub32
  omega

theorem asrStopRecording_stats (s : AsrConvState) (hrec : s.isRecording = true) :
    (asrStopRecording s).stopCount = s.stopCount + 1 ∧
    (asrStopRecording s).isRecording = false := by
  unfold asrStopRecording
  rw [hrec]
  simp only [Bool.not_true, Bool.false_eq_true, if_false]
  split <;> exact ⟨rfl, rfl⟩

theorem asrSilenceTick_no_stop (s : AsrConvState) (t : Nat)
    (hb : s.lastSpeechTime ≤ t) (h32 : t < 4294967296)
    (hlt : t < s.lastSpeechTime + s.silenceDuration) :
    asrSilenceTick s t = s := by
  unfold asrSilenceTick asrCheckSilence
  split
  · split
    · split
      · rename_i hle
        rw [usub32_of_le hb h32] at hle
        omega
      · rfl
    · rfl
  · rfl

/-- Claim C7 as amended: while recording with speech detected at least
once and a positive last-speech timestamp t0, loop iterations earlier
than t0 plus the configured silence duration leave the state untouched,
and the first iteration at or past that bound stops recording; if speech
has never been detected the silence guard never changes the state.  (The
positivity of t0 is required: the guard treats timestamp 0 as unset.) -/
theorem asr_silence_guard_amended (s : AsrConvState) (early : List Nat) (now : Nat)
    (hrec : s.isRecording = true) (hstop : s.shouldStop = false)
    (hsp : s.hasSpeech = true) (ht0 : 0 < s.lastSpeechTime)
    (hb : s.lastSpeechTime ≤ now) (h32 : now < 4294967296)
    (hearly : ∀ t ∈ early, s.lastSpeechTime ≤ t ∧ t < 4294967296 ∧
        t < s.lastSpeechTime + s.silenceDuration) :
    asrSilenceRun s early = s ∧
    (s.lastSpeechTime + s.silenceDuration ≤ now →
      (asrSilenceTick (asrSilenceRun s early) now).stopCount = s.stopCount + 1 ∧
      (asrSilenceTick (asrSilenceRun s early) now).isRecording = false) ∧
    (now < s.lastSpeechTime + s.silenceDuration →
      asrSilenceTick (asrSilenceRun s early) now = s) ∧
    (∀ (s2 : AsrConvState) (ts : List Nat), s2.hasSpeech = false →
      asrSilenceRun s2 ts = s2) := by
  have hnosp : ∀ (s2 : AsrConvState) (ts : List Nat), s2.hasSpeech = false →
      asrSilenceRun s2 ts = s2 := by
    intro s2 ts hsp2
    induction ts with
    | nil => rfl
    | cons t rest ih =>
      unfold asrSilenceRun at ih ⊢
      simp only [List.foldl_cons]
      have htick : asrSilenceTick s2 t = s2 := by
        unfold asrSilenceTick asrCheckSilence
        split
        · split
          · rename_i hc
            rw [hsp2] at hc
            simp at hc
          · rfl
        · rfl
      rw [htick, ih]
  have hearlyrun : asrSilenceRun s early = s := by
    induction early with
    | nil => rfl
    | cons t rest ih =>
      unfold asrSilenceRun at ih ⊢
      simp only [List.foldl_cons]
      obtain ⟨e1, e2, e3⟩ := hearly t (List.mem_cons_self t rest)
      rw [asrSilenceTick_no_stop s t e1 e2 e3]
      exact ih (fun u hu => hearly u (List.mem_cons_of_mem t hu))
  refine ⟨hearlyrun, ?_, ?_, hnosp⟩
  · intro hdue
    rw [hearlyrun]
    unfold asrSilenceTick asrCheckSilence
    rw [if_pos (show s.isRecording = true ∧ ¬s.shouldStop = true from
      ⟨hrec, by rw [hstop]; simp⟩)]
    rw [if_pos (show s.hasSpeech = true ∧ s.lastSpeechTime > 0 from ⟨hsp, ht0⟩)]
    rw [if_pos (show s.silenceDuration ≤ usub32 now s.lastSpeechTime from by
      rw [usub32_of_le hb h32]; omega)]
    exact asrStopRecording_stats s hrec
  · intro hlt
    rw [hearlyrun]
    exact asrSilenceTick_no_stop s now hb h32 hlt

/-- Counterexample to claim C7: when the sole recognition update (and
hence speech detection) happens at millis() = 0, the guard's
`_lastSpeechTime > 0` test stays false and recording is never stopped —
not at the first iteration where the silence duration (default 1000 ms)
has elapsed, nor ever after. -/
theorem asr_silence_guard_zero_counterexample :
    (asrTextUpdate asrStartState "hi" 0).hasSpeech = true ∧
    (asrTextUpdate asrStartState "hi" 0).isRecording = true ∧
    (asrTextUpdate asrStartState "hi" 0).lastSpeechTime = 0 ∧
    (asrTextUpdate asrStartState "hi" 0).silenceDuration = 1000 ∧
    (asrSilenceTick (asrTextUpdate asrStartState "hi" 0) 1000).stopCount = 0 ∧
    (asrSilenceTick (asrTextUpdate asrStartState "hi" 0) 1000).isRecording = true ∧
    (asrSilenceTick (asrTextUpdate asrStartState "hi" 0) 5000000).isRecording = true := by
  decide

/-- Witness for claim C7 at concrete inputs: speech detected at t0 = 5,
one early loop iteration at t = 500 changes nothing, and the iteration
at t = 1005 (elapsed 1000 = silence duration) stops recording. -/
theorem asr_silence_guard_amended_witness :
    (asrSilenceTick (asrSilenceRun (asrTextUpdate asrStartState "hi" 5) [500]) 1005).stopCount
      = (asrTextUpdate asrStartState "hi" 5).stopCount + 1 ∧
    (asrSilenceTick (asrSilenceRun (asrTextUpdate asrStartState "hi" 5) [500]) 1005).isRecording
      = false := by
  have h := asr_silence_guard_amended (asrTextUpdate asrStartState "hi" 5) [500] 1005
    (by decide) (by decide) (by decide) (by decide) (by decide) (by decide)
    (by intro t ht
        simp only [List.mem_singleton] at ht
        subst ht
        exact ⟨by decide, by decide, by decide⟩)
  exact h.2.1 (by decide)

/-! ## Claim C10: recognition-result callbacks never fire on empty text -/

/-- Claim C10: any text newly appended to the callback log by the ASR
`stopRecording` or by the RealtimeDialog `EVENT_ASR_ENDED` handler is
non-empty and is exactly the final recognized text latched by that
call. -/
theorem asr_dialog_callbacks_nonempty (s : AsrConvState) (d : DialogAsrState)
    (x y : String) :
    (x ∈ (asrStopRecording s).resultCalls → x ∉ s.resultCalls →
      x ≠ "" ∧ x = s.lastResultText) ∧
    (y ∈ (dialogAsrEnded d).asrEndedCalls → y ∉ d.asrEndedCalls →
      y ≠ "" ∧ y = d.lastASRText) := by
  constructor
  · intro hin hout
    unfold asrStopRecording at hin
    split at hin
    · exact absurd hin hout
    · dsimp only at hin
      split at hin
      · rename_i hlen
        rw [List.mem_append] at hin
        rcases hin with h | h
        · exact absurd h hout
        · rw [List.mem_singleton] at h
          subst h
          refine ⟨?_, rfl⟩
          intro he
          rw [he] at hlen
          simp at hlen
      · exact absurd hin hout
  · intro hin hout
    unfold dialogAsrEnded at hin
    dsimp only at hin
    split at hin
    · rename_i hlen
      rw [List.mem_append] at hin
      rcases hin with h | h
      · exact absurd h hout
      · rw [List.mem_singleton] at h
        subst h
        refine ⟨?_, rfl⟩
        intro he
        rw [he] at hlen
        simp at hlen
    · exact absurd hin hout

/-- Witness for claim C10 at concrete inputs: with final text "ok"
(resp. "hi"), the callback fires with exactly that non-empty text. -/
theorem asr_dialog_callbacks_nonempty_witness :
    ("ok" ∈ (asrStopRecording
        { asrStartState with lastResultText := "ok" }).resultCalls) ∧
    ((("ok" : String) ≠ "" ∧
      "ok" = ({ asrStartState with lastResultText := "ok" } : AsrConvState).lastResultText)) ∧
    ("hi" ∈ (dialogAsrEnded { userSpeaking := true, lastASRText := "hi",
                              recognizedText := "",
                              asrEndedCalls := [] }).asrEndedCalls) ∧
    (("hi" : String) ≠ "" ∧
      "hi" = ({ userSpeaking := true, lastASRText := "hi",
                recognizedText := "",
                asrEndedCalls := [] } : DialogAsrState).lastASRText) := by
  have h := asr_dialog_callbacks_nonempty
    { asrStartState with lastResultText := "ok" }
    { userSpeaking := true, lastASRText := "hi", recognizedText := "",
      asrEndedCalls := [] } "ok" "hi"
  exact ⟨by decide, h.1 (by decide) (by decide), by decide,
    h.2 (by decide) (by decide)⟩

/-! ## Claim C6: result-stability stop after 10 identical updates -/

/-! ## Claim C6: result-stability stop after 10 identical updates -/

theorem asrStopRecording_same (s : AsrConvState) :
    (asrStopRecording s).sameResultCount = s.sameResultCount ∧
    (asrStopRecording s).lastResultText = s.lastResultText := by
  unfold asrStopRecording
  split
  · exact ⟨rfl, rfl⟩
  · dsimp only
    split <;> exact ⟨rfl, rfl⟩

theorem asrTextUpdate_stopped (s : AsrConvState) (a : String) (n : Nat)
    (h : s.shouldStop = true) :
    (asrTextUpdate s a n).stopCount = s.stopCount ∧
    (asrTextUpdate s a n).isRecording = s.isRecording ∧
    (asrTextUpdate s a n).shouldStop = true := by
  unfold asrTextUpdate
  split
  · dsimp only
    split
    · rw [if_neg (by rw [h]; simp)]
      exact ⟨rfl, rfl, h⟩
    · exact ⟨rfl, rfl, h⟩
  · exact ⟨rfl, rfl, h⟩

theorem asrStopRecording_count_bounds (s : AsrConvState) :
    s.stopCount ≤ (asrStopRecording s).stopCount ∧
    (asrStopRecording s).stopCount ≤ s.stopCount + 1 := by
  unfold asrStopRecording
  split
  · omega
  · dsimp only
    split <;> (dsimp only; omega)

theorem asrTextUpdate_count_bounds (s : AsrConvState) (a : String) (n : Nat) :
    s.stopCount ≤ (asrTextUpdate s a n).stopCount ∧
    (asrTextUpdate s a n).stopCount ≤ s.stopCount + 1 := by
  unfold asrTextUpdate
  split
  · dsimp only
    split
    · split
      · exact asrStopRecording_count_bounds
          { s with hasSpeech := true, lastSpeechTime := n,
                   sameResultCount := s.sameResultCount + 1 }
      · dsimp only; omega
    · dsimp only; omega
  · omega

theorem asrStopRecording_of_recording (s : AsrConvState)
    (h : s.isRecording = true) :
    (asrStopRecording s).stopCount = s.stopCount + 1 ∧
    (asrStopRecording s).isRecording = false ∧
    (asrStopRecording s).shouldStop = true := by
  unfold asrStopRecording
  rw [h]
  simp only [Bool.not_true, Bool.false_eq_true, if_false]
  split <;> exact ⟨rfl, rfl, rfl⟩

theorem asrWindowProp_step (t : String) (hv : asrValidText t = true)
    (k : Nat) (s : AsrConvState) (u : String × Nat) (hu : u.1 = t)
    (h : asrWindowProp t k s) :
    asrWindowProp t (k + 1) (asrTextUpdate s u.1 u.2) := by
  rcases h with ⟨h1, h2, h3⟩ | ⟨h1, h2, h3, h4, h5⟩
  · obtain ⟨p1, p2, p3⟩ := asrTextUpdate_stopped s u.1 u.2 h3
    exact Or.inl ⟨by rw [p1, h1], by rw [p2, h2], p3⟩
  · rw [hu]
    unfold asrTextUpdate
    rw [if_pos hv]
    dsimp only
    by_cases hsame : t = s.lastResultText
    · rw [if_pos hsame]
      split
      · rename_i hcond
        left
        have hrec :
            ({ s with hasSpeech := true, lastSpeechTime := u.2,
                      sameResultCount := s.sameResultCount + 1 } :
              AsrConvState).isRecording = true := h2
        obtain ⟨q1, q2, q3⟩ := asrStopRecording_of_recording _ hrec
        refine ⟨?_, q2, q3⟩
        rw [q1]
        exact congrArg (· + 1) h1
      · rename_i hcond
        right
        have hle : s.sameResultCount + 1 ≤ 9 := by
          rw [h2, h3] at hcond
          simp at hcond
          omega
        have hkc : k ≤ s.sameResultCount := by
          rcases Nat.eq_zero_or_pos k with hk | hk
          · omega
          · exact (h5 hk).2
        exact ⟨h1, h2, h3, hle, fun _ => ⟨hsame.symm, Nat.succ_le_succ hkc⟩⟩
    · rw [if_neg hsame]
      right
      have hk0 : k = 0 := by
        by_contra hne
        have hk : 1 ≤ k := Nat.one_le_iff_ne_zero.mpr hne
        exact hsame ((h5 hk).1.symm)
      subst hk0
      exact ⟨h1, h2, h3, show (1:Nat) ≤ 9 by decide, fun _ => ⟨rfl, Nat.le_refl 1⟩⟩

theorem asrWindowProp_run (t : String) (hv : asrValidText t = true) :
    ∀ (w : List (String × Nat)), (∀ u ∈ w, u.1 = t) →
    ∀ (k : Nat) (s : AsrConvState), asrWindowProp t k s →
    asrWindowProp t (k + w.length) (asrRunUpdates s w) := by
  intro w
  induction w with
  | nil => intro _ k s h; simpa [asrRunUpdates] using h
  | cons u rest ih =>
    intro hm k s h
    have h1 := asrWindowProp_step t hv k s u (hm u (List.mem_cons_self u rest)) h
    have h2 := ih (fun v hvm => hm v (List.mem_cons_of_mem u hvm)) (k + 1) _ h1
    unfold asrRunUpdates at h2 ⊢
    simp only [List.foldl_cons]
    have harith : k + 1 + rest.length = k + (rest.length + 1) := by omega
    rw [harith] at h2
    simpa using h2

theorem asrStabilityInv_step (s : AsrConvState) (u : String × Nat)
    (h : asrStabilityInv s) : asrStabilityInv (asrTextUpdate s u.1 u.2) := by
  by_cases hv : asrValidText u.1 = true
  · have hw : asrWindowProp u.1 0 s := by
      unfold asrStabilityInv at h
      unfold asrWindowProp
      rcases h with h | ⟨h1, h2, h3, h4⟩
      · exact Or.inl h
      · exact Or.inr ⟨h1, h2, h3, h4, by omega⟩
    have h2 := asrWindowProp_step u.1 hv 0 s u rfl hw
    unfold asrWindowProp at h2
    unfold asrStabilityInv
    rcases h2 with h2 | ⟨p1, p2, p3, p4, p5⟩
    · exact Or.inl h2
    · exact Or.inr ⟨p1, p2, p3, p4⟩
  · unfold asrTextUpdate
    rw [if_neg hv]
    exact h

theorem asrStabilityInv_run (l : List (String × Nat)) (s : AsrConvState)
    (h : asrStabilityInv s) : asrStabilityInv (asrRunUpdates s l) :=
  foldlInvariant _ asrStabilityInv l s h (fun a b hi => asrStabilityInv_step a b hi)

theorem asrStopped_run (l : List (String × Nat)) : ∀ (s : AsrConvState),
    s.shouldStop = true →
    (asrRunUpdates s l).stopCount = s.stopCount ∧
    (asrRunUpdates s l).isRecording = s.isRecording ∧
    (asrRunUpdates s l).shouldStop = true := by
  induction l with
  | nil => intro s h; exact ⟨rfl, rfl, h⟩
  | cons u rest ih =>
    intro s h
    obtain ⟨p1, p2, p3⟩ := asrTextUpdate_stopped s u.1 u.2 h
    obtain ⟨q1, q2, q3⟩ := ih (asrTextUpdate s u.1 u.2) p3
    unfold asrRunUpdates at q1 q2 ⊢
    simp only [List.foldl_cons]
    exact ⟨q1.trans p1, q2.trans p2, q3⟩

theorem asrRun_count_mono (l : List (String × Nat)) : ∀ (s : AsrConvState),
    s.stopCount ≤ (asrRunUpdates s l).stopCount := by
  induction l with
  | nil => intro s; exact Nat.le_refl _
  | cons u rest ih =>
    intro s
    have h1 := (asrTextUpdate_count_bounds s u.1 u.2).1
    have h2 := ih (asrTextUpdate s u.1 u.2)
    unfold asrRunUpdates at h2 ⊢
    simp only [List.foldl_cons]
    omega

theorem asrRunUpdates_append (s : AsrConvState) (a b : List (String × Nat)) :
    asrRunUpdates s (a ++ b) = asrRunUpdates (asrRunUpdates s a) b := by
  unfold asrRunUpdates
  exact List.foldl_append _ _ _ _

theorem asrPrefix_count_mono (script : List (String × Nat)) {m n : Nat}
    (h : m ≤ n) :
    (asrRunUpdates asrStartState (script.take m)).stopCount ≤
    (asrRunUpdates asrStartState (script.take n)).stopCount := by
  have hsplit : script.take n = script.take m ++ (script.drop m).take (n - m) := by
    rw [← List.take_add]
    congr 1
    omega
  rw [hsplit, asrRunUpdates_append]
  exact asrRun_count_mono _ _

/-- Claim C6: for every scripted update sequence containing 10
consecutive updates carrying the same valid text, recording is stopped
exactly once over the whole script; a stop happens only on an update at
which the consecutive-identical counter reaches exactly 10, and on every
earlier update the counter was at most 9 and no stop occurred. -/
theorem asr_result_stability (script pre w post : List (String × Nat)) (t : String)
    (hsplit : script = pre ++ w ++ post) (hwlen : w.length = 10)
    (hwt : ∀ u ∈ w, u.1 = t) (hv : asrValidText t = true) :
    (asrRunUpdates asrStartState script).stopCount = 1 ∧
    (∀ j, asrStopsAt script j →
      (asrRunUpdates asrStartState (script.take (j + 1))).sameResultCount = 10 ∧
      ∀ m, m < j → ¬ asrStopsAt script m ∧
        (asrRunUpdates asrStartState (script.take (m + 1))).sameResultCount ≤ 9) := by
  have hinv0 : asrStabilityInv asrStartState := by
    right
    refine ⟨rfl, rfl, rfl, ?_⟩
    show (0:Nat) ≤ 9
    decide
  constructor
  · subst hsplit
    have hpre : asrStabilityInv (asrRunUpdates asrStartState pre) :=
      asrStabilityInv_run pre asrStartState hinv0
    have hwp0 : asrWindowProp t 0 (asrRunUpdates asrStartState pre) := by
      unfold asrStabilityInv at hpre
      unfold asrWindowProp
      rcases hpre with h | ⟨h1, h2, h3, h4⟩
      · exact Or.inl h
      · exact Or.inr ⟨h1, h2, h3, h4, by omega⟩
    have hwp := asrWindowProp_run t hv w hwt 0 _ hwp0
    rw [hwlen] at hwp
    have hstopw : (asrRunUpdates (asrRunUpdates asrStartState pre) w).stopCount = 1 ∧
        (asrRunUpdates (asrRunUpdates asrStartState pre) w).shouldStop = true := by
      unfold asrWindowProp at hwp
      rcases hwp with ⟨h1, h2, h3⟩ | ⟨h1, h2, h3, h4, h5⟩
      · exact ⟨h1, h3⟩
      · have := (h5 (by omega)).2
        omega
    rw [asrRunUpdates_append, asrRunUpdates_append]
    obtain ⟨q1, q2, q3⟩ := asrStopped_run post _ hstopw.2
    rw [q1, hstopw.1]
  · intro j hj
    by_cases hjlen : j < script.length
    · have htake : script.take (j + 1)
          = script.take j ++ [script.get ⟨j, hjlen⟩] := by
        rw [List.take_succ]
        congr 1
        rw [List.getElem?_eq_getElem hjlen]
        rfl
      set u := script.get ⟨j, hjlen⟩ with hu
      set sj := asrRunUpdates asrStartState (script.take j) with hsj
      have hstep : asrRunUpdates asrStartState (script.take (j + 1))
          = asrTextUpdate sj u.1 u.2 := by
        rw [htake, asrRunUpdates_append]
        rfl
      have hinvj : asrStabilityInv sj := asrStabilityInv_run _ _ hinv0
      unfold asrStopsAt at hj
      rw [hstep] at hj ⊢
      rw [← hsj] at hj
      rcases hinvj with ⟨h1, h2, h3⟩ | ⟨h1, h2, h3, h4⟩
      · obtain ⟨p1, p2, p3⟩ := asrTextUpdate_stopped sj u.1 u.2 h3
        rw [p1] at hj
        omega
      · have hcount : (asrTextUpdate sj u.1 u.2).sameResultCount = 10 := by
          by_cases hval : asrValidText u.1 = true
          · by_cases hsame : u.1 = sj.lastResultText
            · by_cases hcond : 10 ≤ sj.sameResultCount + 1 ∧
                  sj.isRecording = true ∧ ¬sj.shouldStop = true
              · unfold asrTextUpdate
                rw [if_pos hval]
                dsimp only
                rw [if_pos hsame, if_pos hcond]
                obtain ⟨r1, r2⟩ := asrStopRecording_same
                  { sj with hasSpeech := true, lastSpeechTime := u.2,
                            sameResultCount := sj.sameResultCount + 1 }
                rw [r1]
                show sj.sameResultCount + 1 = 10
                have := hcond.1
                omega
              · exfalso
                unfold asrTextUpdate at hj
                rw [if_pos hval] at hj
                dsimp only at hj
                rw [if_pos hsame, if_neg hcond] at hj
                exact absurd hj (by dsimp only; omega)
            · exfalso
              unfold asrTextUpdate at hj
              rw [if_pos hval] at hj
              dsimp only at hj
              rw [if_neg hsame] at hj
              exact absurd hj (by dsimp only; omega)
          · exfalso
            unfold asrTextUpdate at hj
            rw [if_neg hval] at hj
            omega
        refine ⟨hcount, ?_⟩
        intro m hm
        have hz : (asrRunUpdates asrStartState (script.take j)).stopCount = 0 := h1
        have hmz : (asrRunUpdates asrStartState (script.take (m + 1))).stopCount = 0 := by
          have := asrPrefix_count_mono script (show m + 1 ≤ j by omega)
          omega
        have hmz0 : (asrRunUpdates asrStartState (script.take m)).stopCount = 0 := by
          have := asrPrefix_count_mono script (show m ≤ j by omega)
          omega
        constructor
        · unfold asrStopsAt
          omega
        · have hinvm : asrStabilityInv
              (asrRunUpdates asrStartState (script.take (m + 1))) :=
            asrStabilityInv_run _ _ hinv0
          rcases hinvm with ⟨z1, z2, z3⟩ | ⟨z1, z2, z3, z4⟩
          · omega
          · exact z4
    · exfalso
      unfold asrStopsAt at hj
      rw [List.take_of_length_le (by omega), List.take_of_length_le (by omega)] at hj
      omega

/-- Witness for claim C6 at the spec's example script: "h" followed by
ten times "he" stops recording exactly once. -/
theorem asr_result_stability_witness :
    (asrRunUpdates asrStartState
      ([("h", 0)] ++ List.replicate 10 ("he", 0) ++ [])).stopCount = 1 := by
  have h := asr_result_stability ([("h", 0)] ++ List.replicate 10 ("he", 0) ++ [])
    [("h", 0)] (List.replicate 10 ("he", 0)) [] "he" rfl (by simp)
    (fun u hu => by rw [List.eq_of_mem_replicate hu]) (by decide)
  exact h.1

/-! ## Claim C1 (amended): incomplete frames are never dispatched -/

theorem asrAfterLen_nothing (op : Nat) (masked : Bool) (pl : Nat) (s2 : List Nat)
    (h : s2.length - (if masked then 4 else 0) < pl ∨ ¬(0 < pl ∧ pl < 100000)) :
    (asrHandleWebSocketData.asrAfterLen op masked pl s2).1 = .nothing := by
  unfold asrHandleWebSocketData.asrAfterLen
  dsimp only
  cases masked with
  | false =>
    simp only [Bool.false_eq_true, if_false, readBytes] at h ⊢
    split
    · rename_i hc
      have hlen : (s2.take pl).length = min pl s2.length := List.length_take _ _
      rw [if_neg (by omega)]
    · rfl
  | true =>
    simp only [if_true, readBytes] at h ⊢
    split
    · rename_i hc
      have hlen : ((s2.drop 4).take pl).length = min pl (s2.drop 4).length :=
        List.length_take _ _
      have hdl : (s2.drop 4).length = s2.length - 4 := List.length_drop _ _
      rw [if_neg (by omega)]
    · rfl

theorem ttsAfterLen_nothing (fin : Bool) (op : Nat) (masked : Bool) (pl : Nat)
    (s2 : List Nat)
    (h : s2.length - (if masked then 4 else 0) < pl ∨ ¬(0 < pl ∧ pl < 200000)) :
    (ttsHandleWebSocketData.ttsAfterLen fin op masked pl s2).1 = .nothing := by
  unfold ttsHandleWebSocketData.ttsAfterLen
  dsimp only
  cases masked with
  | false =>
    simp only [Bool.false_eq_true, if_false, readBytes, false_and] at h ⊢
    split
    · rename_i hc
      have hlen : (s2.take pl).length = min pl s2.length := List.length_take _ _
      rw [if_neg (by omega)]
    · rfl
  | true =>
    simp only [if_true, readBytes, true_and] at h ⊢
    by_cases hm4 : (s2.take 4).length = 4
    · rw [if_neg (by omega)]
      split
      · rename_i hc
        have hlen : ((s2.drop 4).take pl).length = min pl (s2.drop 4).length :=
          List.length_take _ _
        have hdl : (s2.drop 4).length = s2.length - 4 := List.length_drop _ _
        rw [if_neg (by omega)]
      · rfl
    · rw [if_pos (by omega)]

theorem dialogAfterLen_nothing (op : Nat) (masked : Bool) (pl : Nat)
    (s2 : List Nat)
    (h : s2.length - (if masked then 4 else 0) < pl ∨ ¬(0 < pl ∧ pl < 1000000)) :
    (dialogHandleWebSocketData.dialogAfterLen op masked pl s2).1 = .nothing := by
  unfold dialogHandleWebSocketData.dialogAfterLen
  dsimp only
  cases masked with
  | false =>
    simp only [Bool.false_eq_true, if_false, readBytes, false_and] at h ⊢
    split
    · rename_i hc
      rw [if_pos (by omega)]
    · split <;> rfl
  | true =>
    simp only [if_true, readBytes, true_and] at h ⊢
    by_cases hm4 : (s2.take 4).length = 4
    · rw [if_neg (by omega)]
      split
      · rename_i hc
        have hdl : (s2.drop 4).length = s2.length - 4 := List.length_drop _ _
        rw [if_pos (by omega)]
      · split <;> rfl
    · rw [if_pos (by omega)]

theorem wsIncomplete_some {s : List Nat} {n : Nat} (h : wsIncomplete s)
    (he : wsFrameNeed s = some n) : s.length < n := by
  unfold wsIncomplete at h
  rw [he] at h
  exact h

theorem asrHandle_incomplete (junk : List Nat) : ∀ (s : List Nat), wsIncomplete s →
    (asrHandleWebSocketData junk s).1 = .nothing := by
  intro s h
  match s with
  | [] => rfl
  | [b] => rfl
  | b0 :: b1 :: rest =>
    unfold asrHandleWebSocketData
    have hrb : readBytes 2 (b0 :: b1 :: rest) = ([b0, b1], rest) := by
      simp [readBytes]
    rw [hrb]
    dsimp only
    rw [if_neg (by simp)]
    dsimp only [List.getD_cons_zero, List.getD_cons_succ]
    by_cases h126 : b1 &&& 127 = 126
    · rw [if_pos h126]
      by_cases hr2 : rest.length < 2
      · have hd : rest.drop 2 = [] := List.drop_eq_nil_of_le (by omega)
        dsimp only [readBytes]
        rw [hd]
        apply asrAfterLen_nothing
        simp only [List.length_nil]
        omega
      · have htk : (rest.take 2).length = 2 := by
          rw [List.length_take]; omega
        have hpad : padTo 2 (rest.take 2) junk = rest.take 2 :=
          padTo_of_length_eq junk htk
        dsimp only [readBytes]
        rw [hpad, getD_take _ (by omega), getD_take _ (by omega)]
        have hne : wsFrameNeed (b0 :: b1 :: rest)
            = some (4 + (if (b1 &&& 128 != 0) = true then 4 else 0)
                      + ((rest.getD 0 0 <<< 8) ||| rest.getD 1 0)) := by
          unfold wsFrameNeed
          dsimp only
          rw [if_pos h126, if_neg hr2]
        have hlt := wsIncomplete_some h hne
        simp only [List.length_cons] at hlt
        apply asrAfterLen_nothing
        rw [List.length_drop]
        omega
    · by_cases h127 : b1 &&& 127 = 127
      · rw [if_neg h126, if_pos h127]
        by_cases hr8 : rest.length < 8
        · have hd : rest.drop 8 = [] := List.drop_eq_nil_of_le (by omega)
          dsimp only [readBytes]
          rw [hd]
          apply asrAfterLen_nothing
          simp only [List.length_nil]
          omega
        · have htk : (rest.take 8).length = 8 := by
            rw [List.length_take]; omega
          have hpad : padTo 8 (rest.take 8) junk = rest.take 8 :=
            padTo_of_length_eq junk htk
          dsimp only [readBytes]
          rw [hpad]
          have hne : wsFrameNeed (b0 :: b1 :: rest)
              = some (10 + (if (b1 &&& 128 != 0) = true then 4 else 0)
                        + beBytesToNat (rest.take 8)) := by
            unfold wsFrameNeed
            dsimp only
            rw [if_neg h126, if_pos h127, if_neg hr8]
          have hlt := wsIncomplete_some h hne
          simp only [List.length_cons] at hlt
          apply asrAfterLen_nothing
          rw [List.length_drop]
          omega
      · rw [if_neg h126, if_neg h127]
        have hne : wsFrameNeed (b0 :: b1 :: rest)
            = some (2 + (if (b1 &&& 128 != 0) = true then 4 else 0)
                      + (b1 &&& 127)) := by
          unfold wsFrameNeed
          dsimp only
          rw [if_neg h126, if_neg h127]
        have hlt := wsIncomplete_some h hne
        simp only [List.length_cons] at hlt
        apply asrAfterLen_nothing
        omega

theorem ttsHandle_incomplete : ∀ (s : List Nat), wsIncomplete s →
    (ttsHandleWebSocketData s).1 = .nothing := by
  intro s h
  match s with
  | [] => rfl
  | [b] => rfl
  | b0 :: b1 :: rest =>
    unfold ttsHandleWebSocketData
    have hrb : readBytes 2 (b0 :: b1 :: rest) = ([b0, b1], rest) := by
      simp [readBytes]
    rw [hrb]
    dsimp only
    rw [if_neg (by simp)]
    dsimp only [List.getD_cons_zero, List.getD_cons_succ]
    by_cases h126 : b1 &&& 127 = 126
    · rw [if_pos h126]
      by_cases hr2 : rest.length < 2
      · dsimp only [readBytes]
        rw [if_pos (by rw [List.length_take]; omega)]
      · have htk : (rest.take 2).length = 2 := by
          rw [List.length_take]; omega
        dsimp only [readBytes]
        rw [if_neg (by omega)]
        rw [getD_take _ (by omega), getD_take _ (by omega)]
        have hne : wsFrameNeed (b0 :: b1 :: rest)
            = some (4 + (if (b1 &&& 128 != 0) = true then 4 else 0)
                      + ((rest.getD 0 0 <<< 8) ||| rest.getD 1 0)) := by
          unfold wsFrameNeed
          dsimp only
          rw [if_pos h126, if_neg hr2]
        have hlt := wsIncomplete_some h hne
        simp only [List.length_cons] at hlt
        apply ttsAfterLen_nothing
        rw [List.length_drop]
        omega
    · by_cases h127 : b1 &&& 127 = 127
      · rw [if_neg h126, if_pos h127]
        by_cases hr8 : rest.length < 8
        · dsimp only [readBytes]
          rw [if_pos (by rw [List.length_take]; omega)]
        · have htk : (rest.take 8).length = 8 := by
            rw [List.length_take]; omega
          dsimp only [readBytes]
          rw [if_neg (by omega)]
          have hne : wsFrameNeed (b0 :: b1 :: rest)
              = some (10 + (if (b1 &&& 128 != 0) = true then 4 else 0)
                        + beBytesToNat (rest.take 8)) := by
            unfold wsFrameNeed
            dsimp only
            rw [if_neg h126, if_pos h127, if_neg hr8]
          have hlt := wsIncomplete_some h hne
          simp only [List.length_cons] at hlt
          apply ttsAfterLen_nothing
          rw [List.length_drop]
          omega
      · rw [if_neg h126, if_neg h127]
        have hne : wsFrameNeed (b0 :: b1 :: rest)
            = some (2 + (if (b1 &&& 128 != 0) = true then 4 else 0)
                      + (b1 &&& 127)) := by
          unfold wsFrameNeed
          dsimp only
          rw [if_neg h126, if_neg h127]
        have hlt := wsIncomplete_some h hne
        simp only [List.length_cons] at hlt
        apply ttsAfterLen_nothing
        omega

theorem dialogHandle_incomplete : ∀ (s : List Nat), wsIncomplete s →
    (dialogHandleWebSocketData s).1 = .nothing := by
  intro s h
  match s with
  | [] => rfl
  | [b] => rfl
  | b0 :: b1 :: rest =>
    unfold dialogHandleWebSocketData
    rw [if_neg (by simp only [List.length_cons]; omega)]
    have hrb : readBytes 2 (b0 :: b1 :: rest) = ([b0, b1], rest) := by
      simp [readBytes]
    rw [hrb]
    dsimp only
    rw [if_neg (by simp)]
    dsimp only [List.getD_cons_zero, List.getD_cons_succ]
    by_cases h126 : b1 &&& 127 = 126
    · rw [if_pos h126]
      by_cases hr2 : rest.length < 2
      · dsimp only [readBytes]
        rw [if_pos (by rw [List.length_take]; omega)]
      · have htk : (rest.take 2).length = 2 := by
          rw [List.length_take]; omega
        dsimp only [readBytes]
        rw [if_neg (by omega)]
        rw [getD_take _ (by omega), getD_take _ (by omega)]
        have hne : wsFrameNeed (b0 :: b1 :: rest)
            = some (4 + (if (b1 &&& 128 != 0) = true then 4 else 0)
                      + ((rest.getD 0 0 <<< 8) ||| rest.getD 1 0)) := by
          unfold wsFrameNeed
          dsimp only
          rw [if_pos h126, if_neg hr2]
        have hlt := wsIncomplete_some h hne
        simp only [List.length_cons] at hlt
        apply dialogAfterLen_nothing
        rw [List.length_drop]
        omega
    · by_cases h127 : b1 &&& 127 = 127
      · rw [if_neg h126, if_pos h127]
        by_cases hr8 : rest.length < 8
        · dsimp only [readBytes]
          rw [if_pos (by rw [List.length_take]; omega)]
        · have htk : (rest.take 8).length = 8 := by
            rw [List.length_take]; omega
          dsimp only [readBytes]
          rw [if_neg (by omega)]
          have hne : wsFrameNeed (b0 :: b1 :: rest)
              = some (10 + (if (b1 &&& 128 != 0) = true then 4 else 0)
                        + beBytesToNat (rest.take 8)) := by
            unfold wsFrameNeed
            dsimp only
            rw [if_neg h126, if_pos h127, if_neg hr8]
          have hlt := wsIncomplete_some h hne
          simp only [List.length_cons] at hlt
          apply dialogAfterLen_nothing
          rw [List.length_drop]
          omega
      · rw [if_neg h126, if_neg h127]
        have hne : wsFrameNeed (b0 :: b1 :: rest)
            = some (2 + (if (b1 &&& 128 != 0) = true then 4 else 0)
                      + (b1 &&& 127)) := by
          unfold wsFrameNeed
          dsimp only
          rw [if_neg h126, if_neg h127]
        have hlt := wsIncomplete_some h hne
        simp only [List.length_cons] at hlt
        apply dialogAfterLen_nothing
        omega

/-- Claim C1 as amended: whenever the stream does not yet contain one
complete frame, each of the three decoders returns without dispatching
anything to the protocol layer (though bytes may have been consumed, as
the counterexample shows), and the RealtimeDialog decoder's initial
check (fewer than 2 available bytes) returns with the stream untouched. -/
theorem ws_incomplete_no_dispatch (junk : List Nat) (s : List Nat)
    (h : wsIncomplete s) :
    (asrHandleWebSocketData junk s).1 = .nothing ∧
    (ttsHandleWebSocketData s).1 = .nothing ∧
    (dialogHandleWebSocketData s).1 = .nothing ∧
    (s.length < 2 → (dialogHandleWebSocketData s).2 = s) := by
  refine ⟨asrHandle_incomplete junk s h, ttsHandle_incomplete s h,
    dialogHandle_incomplete s h, fun hlen => ?_⟩
  unfold dialogHandleWebSocketData
  rw [if_pos hlen]

/-- Witness for amended claim C1 at a concrete input: the single-byte
stream `[0x81]` is an incomplete frame, no decoder dispatches on it, and
the RealtimeDialog decoder leaves it untouched. -/
theorem ws_incomplete_no_dispatch_witness :
    wsIncomplete [0x81] ∧
    (asrHandleWebSocketData [] [0x81]).1 = .nothing ∧
    (ttsHandleWebSocketData [0x81]).1 = .nothing ∧
    (dialogHandleWebSocketData [0x81]).2 = [0x81] := by
  have h := ws_incomplete_no_dispatch [] [0x81] (by decide)
  exact ⟨by decide, h.1, h.2.1, h.2.2.2 (by decide)⟩

/-! ## Claim C3: encode/decode round trip -/

theorem beBytesToNat_pair (a b : Nat) : beBytesToNat [a, b] = (a <<< 8) ||| b := by
  simp [beBytesToNat]

theorem wsParse_encoded (op b1 : Nat) (ext payload maskKey : List Nat)
    (hmk : maskKey.length = 4)
    (hfin : ((0x80 ||| op) &&& 0x80 != 0) = true)
    (hopc : (0x80 ||| op) &&& 0x0F = op)
    (hmb : (b1 &&& 0x80 != 0) = true)
    (hextlen : ext.length
      = (if b1 &&& 0x7F = 126 then 2 else if b1 &&& 0x7F = 127 then 8 else 0))
    (hplen : (if b1 &&& 0x7F = 126 ∨ b1 &&& 0x7F = 127 then beBytesToNat ext
              else b1 &&& 0x7F) = payload.length) :
    wsParseFrame ((0x80 ||| op) :: b1 :: (ext ++ maskKey ++ maskWith maskKey 0 payload))
      = some ({ fin := true, opcode := op, masked := true, payload := payload }, []) := by
  unfold wsParseFrame
  dsimp only
  rw [List.append_assoc]
  rw [if_neg (by rw [List.length_append, ← hextlen]; omega)]
  rw [← hextlen, List.take_left, List.drop_left]
  rw [hmb]
  simp only [if_true]
  rw [if_neg (by rw [List.length_append, ← hmk]; omega)]
  rw [← hmk, List.take_left, List.drop_left]
  have hmlen : (maskWith maskKey 0 payload).length = payload.length :=
    maskWith_length maskKey 0 payload
  have hplen2 : (if b1 &&& 0x7F = 126 ∨ b1 &&& 0x7F = 127 then beBytesToNat ext
      else b1 &&& 0x7F) = (maskWith maskKey 0 payload).length := by
    rw [hmlen]; exact hplen
  rw [hplen2]
  rw [if_neg (by omega)]
  rw [List.take_length, List.drop_length]
  rw [maskWith_maskWith]
  rw [hfin, hopc]

theorem asrAfterLen_dispatch (op : Nat) (payload maskKey : List Nat)
    (hmk : maskKey.length = 4) (hop : op = 0x01 ∨ op = 0x02)
    (hp0 : 0 < payload.length) (hpc : payload.length < 100000) :
    asrHandleWebSocketData.asrAfterLen op true payload.length
        (maskKey ++ maskWith maskKey 0 payload)
      = (.dispatch op payload, []) := by
  unfold asrHandleWebSocketData.asrAfterLen
  simp only [if_true, readBytes]
  rw [← hmk, List.take_left, List.drop_left]
  rw [if_pos ⟨hp0, hpc⟩]
  have hml := maskWith_length maskKey 0 payload
  rw [show payload.length = (maskWith maskKey 0 payload).length from hml.symm]
  rw [List.take_length, List.drop_length]
  rw [if_pos rfl]
  rw [maskWith_maskWith]
  rw [if_pos hop]

theorem asrHandle_encoded (op b1 : Nat) (ext payload maskKey junk : List Nat)
    (hmk : maskKey.length = 4)
    (hopc : (0x80 ||| op) &&& 0x0F = op)
    (hmb : (b1 &&& 0x80 != 0) = true)
    (hop : op = 0x01 ∨ op = 0x02)
    (hp0 : 0 < payload.length) (hpc : payload.length < 100000)
    (hb : (b1 &&& 0x7F = 126 ∧ ext.length = 2 ∧
             (((padTo 2 ext junk).getD 0 0 <<< 8) ||| (padTo 2 ext junk).getD 1 0)
               = payload.length) ∨
          (b1 &&& 0x7F = 127 ∧ ext.length = 8 ∧
             beBytesToNat (padTo 8 ext junk) = payload.length) ∨
          (¬b1 &&& 0x7F = 126 ∧ ¬b1 &&& 0x7F = 127 ∧ ext = [] ∧
             b1 &&& 0x7F = payload.length)) :
    asrHandleWebSocketData junk
        ((0x80 ||| op) :: b1 :: (ext ++ maskKey ++ maskWith maskKey 0 payload))
      = (.dispatch op payload, []) := by
  unfold asrHandleWebSocketData
  have hrb : readBytes 2
      ((0x80 ||| op) :: b1 :: (ext ++ maskKey ++ maskWith maskKey 0 payload))
      = ([0x80 ||| op, b1], ext ++ maskKey ++ maskWith maskKey 0 payload) := by
    simp [readBytes]
  rw [hrb]
  dsimp only
  rw [if_neg (by simp)]
  dsimp only [List.getD_cons_zero, List.getD_cons_succ]
  rw [List.append_assoc]
  rcases hb with ⟨h1, h2, h3⟩ | ⟨h1, h2, h3⟩ | ⟨h1, h1b, h2, h3⟩
  · rw [if_pos h1]
    dsimp only [readBytes]
    rw [← h2, List.take_left, List.drop_left, h2]
    rw [h3, hopc, hmb]
    exact asrAfterLen_dispatch op payload maskKey hmk hop hp0 hpc
  · rw [if_neg (by rw [h1]; decide), if_pos h1]
    dsimp only [readBytes]
    rw [← h2, List.take_left, List.drop_left, h2]
    rw [h3, hopc, hmb]
    exact asrAfterLen_dispatch op payload maskKey hmk hop hp0 hpc
  · rw [if_neg h1, if_neg h1b]
    subst h2
    rw [List.nil_append] at *
    rw [h3, hopc, hmb]
    exact asrAfterLen_dispatch op payload maskKey hmk hop hp0 hpc


theorem asr_round_trip_core (op b1 : Nat) (payload maskKey junk ext : List Nat)
    (hmk : maskKey.length = 4)
    (henc : asrSendWebSocketFrame payload op maskKey
      = (0x80 ||| op) :: b1 :: (ext ++ maskKey ++ maskWith maskKey 0 payload))
    (hfin : ((0x80 ||| op) &&& 0x80 != 0) = true)
    (hopc : (0x80 ||| op) &&& 0x0F = op)
    (hmb : (b1 &&& 0x80 != 0) = true)
    (hlenc : b1 &&& 0x7F = (if payload.length ≤ 125 then payload.length
         else if payload.length ≤ 65535 then 126 else 127))
    (hextlen : ext.length
      = (if b1 &&& 0x7F = 126 then 2 else if b1 &&& 0x7F = 127 then 8 else 0))
    (hplen : (if b1 &&& 0x7F = 126 ∨ b1 &&& 0x7F = 127 then beBytesToNat ext
              else b1 &&& 0x7F) = payload.length)
    (hop : op = 0x01 ∨ op = 0x02)
    (hpc : payload.length < 100000)
    (hb : (b1 &&& 0x7F = 126 ∧ ext.length = 2 ∧
             (((padTo 2 ext junk).getD 0 0 <<< 8) ||| (padTo 2 ext junk).getD 1 0)
               = payload.length) ∨
          (b1 &&& 0x7F = 127 ∧ ext.length = 8 ∧
             beBytesToNat (padTo 8 ext junk) = payload.length) ∨
          (¬b1 &&& 0x7F = 126 ∧ ¬b1 &&& 0x7F = 127 ∧ ext = [] ∧
             b1 &&& 0x7F = payload.length)) :
    ((asrSendWebSocketFrame payload op maskKey).getD 0 0) &&& 0x80 ≠ 0 ∧
    ((asrSendWebSocketFrame payload op maskKey).getD 1 0) &&& 0x80 ≠ 0 ∧
    ((asrSendWebSocketFrame payload op maskKey).getD 1 0) &&& 0x7F
      = (if payload.length ≤ 125 then payload.length
         else if payload.length ≤ 65535 then 126 else 127) ∧
    wsParseFrame (asrSendWebSocketFrame payload op maskKey)
      = some ({ fin := true, opcode := op, masked := true, payload := payload }, []) ∧
    (0 < payload.length →
      asrHandleWebSocketData junk (asrSendWebSocketFrame payload op maskKey)
        = (.dispatch op payload, [])) := by
  rw [henc]
  refine ⟨?_, ?_, ?_, ?_, ?_⟩
  · simpa using bne_iff_ne.mp hfin
  · simpa using bne_iff_ne.mp hmb
  · simpa using hlenc
  · exact wsParse_encoded op b1 ext payload maskKey hmk hfin hopc hmb hextlen hplen
  · intro hp0
    exact asrHandle_encoded op b1 ext payload maskKey junk hmk hopc hmb hop hp0 hpc hb

/-- Claim C3: for every payload whose length is one of 0, 1, 125, 126,
65535, 65536 and every data opcode (text 0x01 or binary 0x02), the frame
produced by `sendWebSocketFrame` has the FIN bit and the MASK bit set,
selects the correct one of the three length encodings (7-bit below 126,
16-bit up to 65535, 64-bit above), and parsing the frame back with the
decoder logic of `handleWebSocketData` reproduces the original payload
bytes and opcode exactly (for a non-empty payload the ASR client indeed
dispatches exactly that payload and opcode, consuming the whole frame). -/
theorem asr_frame_round_trip (payload maskKey junk : List Nat) (opcode : Nat)
    (hL : payload.length = 0 ∨ payload.length = 1 ∨ payload.length = 125 ∨
          payload.length = 126 ∨ payload.length = 65535 ∨ payload.length = 65536)
    (hop : opcode = 0x01 ∨ opcode = 0x02)
    (hmk : maskKey.length = 4) :
    ((asrSendWebSocketFrame payload opcode maskKey).getD 0 0) &&& 0x80 ≠ 0 ∧
    ((asrSendWebSocketFrame payload opcode maskKey).getD 1 0) &&& 0x80 ≠ 0 ∧
    ((asrSendWebSocketFrame payload opcode maskKey).getD 1 0) &&& 0x7F
      = (if payload.length ≤ 125 then payload.length
         else if payload.length ≤ 65535 then 126 else 127) ∧
    wsParseFrame (asrSendWebSocketFrame payload opcode maskKey)
      = some ({ fin := true, opcode := opcode, masked := true, payload := payload }, []) ∧
    (0 < payload.length →
      asrHandleWebSocketData junk (asrSendWebSocketFrame payload opcode maskKey)
        = (.dispatch opcode payload, [])) := by
  rcases hL with hpay | hpay | hpay | hpay | hpay | hpay
  · exact asr_round_trip_core opcode 128 payload maskKey junk [] hmk
      (by unfold asrSendWebSocketFrame; rw [hpay]; norm_num [List.range_succ])
      (by rcases hop with h | h <;> subst h <;> decide)
      (by rcases hop with h | h <;> subst h <;> decide)
      (by decide) (by rw [hpay]; decide) (by decide) (by rw [hpay]; decide)
      hop (by rw [hpay]; decide)
      (Or.inr (Or.inr ⟨by decide, by decide, rfl, by rw [hpay]; decide⟩))
  · exact asr_round_trip_core opcode 129 payload maskKey junk [] hmk
      (by unfold asrSendWebSocketFrame; rw [hpay]; norm_num [List.range_succ];
          all_goals decide)
      (by rcases hop with h | h <;> subst h <;> decide)
      (by rcases hop with h | h <;> subst h <;> decide)
      (by decide) (by rw [hpay]; decide) (by decide) (by rw [hpay]; decide)
      hop (by rw [hpay]; decide)
      (Or.inr (Or.inr ⟨by decide, by decide, rfl, by rw [hpay]; decide⟩))
  · exact asr_round_trip_core opcode 253 payload maskKey junk [] hmk
      (by unfold asrSendWebSocketFrame; rw [hpay]; norm_num [List.range_succ];
          all_goals decide)
      (by rcases hop with h | h <;> subst h <;> decide)
      (by rcases hop with h | h <;> subst h <;> decide)
      (by decide) (by rw [hpay]; decide) (by decide) (by rw [hpay]; decide)
      hop (by rw [hpay]; decide)
      (Or.inr (Or.inr ⟨by decide, by decide, rfl, by rw [hpay]; decide⟩))
  · exact asr_round_trip_core opcode 254 payload maskKey junk [0, 126] hmk
      (by unfold asrSendWebSocketFrame; rw [hpay]; norm_num [List.range_succ];
          all_goals decide)
      (by rcases hop with h | h <;> subst h <;> decide)
      (by rcases hop with h | h <;> subst h <;> decide)
      (by decide) (by rw [hpay]; decide) (by decide) (by rw [hpay]; decide)
      hop (by rw [hpay]; decide)
      (Or.inl ⟨by decide, by decide,
        by rw [padTo_of_length_eq junk (by decide)]; rw [hpay]; decide⟩)
  · exact asr_round_trip_core opcode 254 payload maskKey junk [255, 255] hmk
      (by unfold asrSendWebSocketFrame; rw [hpay]; norm_num [List.range_succ];
          all_goals decide)
      (by rcases hop with h | h <;> subst h <;> decide)
      (by rcases hop with h | h <;> subst h <;> decide)
      (by decide) (by rw [hpay]; decide) (by decide) (by rw [hpay]; decide)
      hop (by rw [hpay]; decide)
      (Or.inl ⟨by decide, by decide,
        by rw [padTo_of_length_eq junk (by decide)]; rw [hpay]; decide⟩)
  · exact asr_round_trip_core opcode 255 payload maskKey junk
      [0, 0, 0, 0, 0, 1, 0, 0] hmk
      (by unfold asrSendWebSocketFrame; rw [hpay]; norm_num [List.range_succ];
          all_goals decide)
      (by rcases hop with h | h <;> subst h <;> decide)
      (by rcases hop with h | h <;> subst h <;> decide)
      (by decide) (by rw [hpay]; decide) (by decide) (by rw [hpay]; decide)
      hop (by rw [hpay]; decide)
      (Or.inr (Or.inl ⟨by decide, by decide,
        by rw [padTo_of_length_eq junk (by decide)]; rw [hpay]; decide⟩))

/-- Witness for claim C3 at a concrete input: payload `[5]`, text
opcode, mask key `[9, 2, 3, 4]`. -/
theorem asr_frame_round_trip_witness :
    wsParseFrame (asrSendWebSocketFrame [5] 1 [9, 2, 3, 4])
      = some ({ fin := true, opcode := 1, masked := true, payload := [5] }, []) ∧
    asrHandleWebSocketData [] (asrSendWebSocketFrame [5] 1 [9, 2, 3, 4])
      = (.dispatch 1 [5], []) := by
  have h := asr_frame_round_trip [5] [9, 2, 3, 4] [] 1
    (by decide) (by decide) (by decide)
  exact ⟨h.2.2.2.1, h.2.2.2.2 (by decide)⟩
